import Mathlib

/-!
# `mongodb/init/init-mongo.js`

A shallow embedding of the MongoDB initialisation script and of the shell
session it runs in.

* The script itself (`initMongo`, with its `try` body `tryBlock`) is
  transcribed statement by statement from the JavaScript source.
* The database server the script talks to is not part of the repository.  It
  is represented by an explicit state (`Server`): per database, the users
  and the collections, and per collection the named indexes.  Names are
  unique (association lists without duplicate keys), as they are in
  MongoDB.  The commands follow the documented behaviour of the shell
  helpers: `createUser` and `createCollection` reject a name that exists,
  `createIndex` is a no-op on an identical index and rejects a conflicting
  one.  System collections and the implicit `_id_` index are not
  represented.
* Any call that reaches the server may in addition fail for a reason that
  the state does not capture (connection, authentication, permissions).
  This is the `Faults` oracle: the error, if any, that a given command
  raises.
* The helper `getSiblingDB` does not reach the server; the shell itself
  rejects a name that is not a valid database name (empty, or with one of
  the characters `/`, the backslash, `.`, blank, the double quote, NUL).
* Every observable action of a run (printed lines, calls with their
  outcome) is appended to a trace.
-/

namespace InitMongo

/-! ## JavaScript values and errors -/

/-- An error object, as thrown by the shell helpers. -/
structure JsError where
  name : String
  message : String
deriving DecidableEq, Repr

/-- String form of an error, as produced by `'...' + err`
(`Error.prototype.toString`). -/
def JsError.toString (e : JsError) : String :=
  if e.name = "" then e.message
  else if e.message = "" then e.name
  else e.name ++ ": " ++ e.message

/-! ## Database state -/

/-- A user document: the password and the roles given at creation. -/
structure UserDoc where
  pwd : String
  roles : List String
deriving DecidableEq, Repr

/-- A scalar inside an index key document. -/
inductive Scalar where
  | str (s : String)
  | num (n : Nat)
deriving DecidableEq, Repr

/-- The embedded document attached to one field of an index key. -/
abbrev FieldSpec := List (String × Scalar)

/-- An index key document: field name, then its embedded document. -/
abbrev IndexKey := List (String × FieldSpec)

/-- A collection: its indexes, by index name. -/
structure Collection where
  indexes : AList (fun _ : String => IndexKey)

/-- One database (scope): its users and its collections, by name. -/
structure Database where
  users : AList (fun _ : String => UserDoc)
  collections : AList (fun _ : String => Collection)

/-- The server: every database name addresses a database. -/
abbrev Server := String → Database

/-- The database in which nothing has been created. -/
def Database.empty : Database := ⟨∅, ∅⟩

/-- The server on which nothing has been created. -/
def Server.empty : Server := fun _ => Database.empty

/-! ## Commands -/

/-- The calls of the script that can raise: the shell's `sleep` and the
database helpers, with their receiver and arguments. -/
inductive Cmd where
  | sleep (ms : Nat)
  | getSiblingDB (name : String)
  | getUser (db user : String)
  | createUser (db user pwd : String) (roles : List String)
  | getCollectionNames (db : String)
  | createCollection (db name : String)
  | createIndex (db coll : String) (key : IndexKey) (name : String)
deriving DecidableEq, Repr

/-- What a call returns to the script. -/
inductive JsVal where
  | undefined
  | null
  | database (name : String)
  | user (name : String) (doc : UserDoc)
  | names (ns : List String)
  | ok
deriving DecidableEq, Repr

/-- JavaScript truthiness (`ToBoolean`): `undefined` and `null` are falsy,
objects and arrays are truthy. -/
def JsVal.truthy : JsVal → Bool
  | .undefined => false
  | .null => false
  | .database _ => true
  | .user _ _ => true
  | .names _ => true
  | .ok => true

/-- The array method `includes` applied to a returned value. -/
def JsVal.includes : JsVal → String → Bool
  | .names ns, x => ns.contains x
  | _, _ => false

/-- The codes of the characters a database name must not contain: `/`, the
backslash, `.`, blank, the double quote, NUL. -/
def forbiddenInDatabaseName : List Nat := [47, 92, 46, 32, 34, 0]

/-- The check of the shell on a database name: not empty, and without a
forbidden character. -/
def validDatabaseName (name : String) : Bool :=
  !name.data.isEmpty && name.data.all fun c => !forbiddenInDatabaseName.contains c.toNat

/-- The error of the shell for an invalid database name. -/
def invalidDatabaseNameError (name : String) : JsError :=
  ⟨"MongoshInvalidInputError", "[COMMON-10001] Invalid database name: " ++ name⟩

/-- Errors raised by the server itself. -/
def userExistsError (db user : String) : JsError :=
  ⟨"MongoServerError", "User \"" ++ user ++ "@" ++ db ++ "\" already exists"⟩

def namespaceExistsError (db name : String) : JsError :=
  ⟨"MongoServerError", "Collection " ++ db ++ "." ++ name ++ " already exists."⟩

def indexKeySpecsConflict (name : String) : JsError :=
  ⟨"MongoServerError",
    "An existing index has the same name as the requested index: " ++ name⟩

def indexOptionsConflict (name : String) : JsError :=
  ⟨"MongoServerError", "Index already exists with a different name: " ++ name⟩

/-- The name of an index of the collection with the given key, if any. -/
def Collection.nameOfKey (c : Collection) (key : IndexKey) : Option String :=
  (c.indexes.entries.find? (fun e => decide (e.2 = key))).map (fun e => e.1)

/-- Replace the users of one database. -/
def Server.setUsers (s : Server) (db : String)
    (us : AList (fun _ : String => UserDoc)) : Server :=
  Function.update s db { s db with users := us }

/-- Replace the collections of one database. -/
def Server.setCollections (s : Server) (db : String)
    (cs : AList (fun _ : String => Collection)) : Server :=
  Function.update s db { s db with collections := cs }

/-- The command `createIndex` on the server, after the documented behaviour
of MongoDB: the collection is created when missing; an index with the
requested name must have the requested key (then nothing is done); the
requested key must not exist under another name. -/
def createIndexOn (s : Server) (db coll : String) (key : IndexKey)
    (name : String) : Except JsError (JsVal × Server) :=
  let c : Collection := ((s db).collections.lookup coll).getD ⟨∅⟩
  match c.indexes.lookup name with
  | some k =>
    if k = key then .ok (.ok, s) else .error (indexKeySpecsConflict name)
  | none =>
    match c.nameOfKey key with
    | some other => .error (indexOptionsConflict other)
    | none =>
      .ok (.ok, s.setCollections db
        ((s db).collections.insert coll ⟨c.indexes.insert name key⟩))

/-- The effect of a command on the server, and the value it returns, after
the documented behaviour of the shell helpers. -/
def exec : Cmd → Server → Except JsError (JsVal × Server)
  | .sleep _, s => .ok (.undefined, s)
  | .getSiblingDB name, s =>
    if validDatabaseName name then .ok (.database name, s)
    else .error (invalidDatabaseNameError name)
  | .getUser db user, s =>
    match (s db).users.lookup user with
    | some doc => .ok (.user user doc, s)
    | none => .ok (.null, s)
  | .createUser db user pwd roles, s =>
    if user ∈ (s db).users then .error (userExistsError db user)
    else .ok (.ok, s.setUsers db ((s db).users.insert user ⟨pwd, roles⟩))
  | .getCollectionNames db, s => .ok (.names (s db).collections.keys, s)
  | .createCollection db name, s =>
    if name ∈ (s db).collections then .error (namespaceExistsError db name)
    else .ok (.ok, s.setCollections db ((s db).collections.insert name ⟨∅⟩))
  | .createIndex db coll key name, s => createIndexOn s db coll key name

/-! ## The shell session -/

/-- How a command ended: the value returned or the error raised. -/
abbrev Outcome := Except JsError JsVal

/-- An observable action of a run. -/
inductive Event where
  | print (line : String)
  | call (c : Cmd) (r : Outcome)

/-- Failures that the server state does not determine: the error, if any,
with which a command that reaches the server is rejected. -/
abbrev Faults := Cmd → Option JsError

/-- No command is rejected for an outside reason. -/
def noFaults : Faults := fun _ => none

/-- The state of a shell session: the server, the global `db` (the name of
the current database) and the actions so far. -/
structure Shell where
  server : Server
  db : String
  trace : List Event

/-- A new session on a server. -/
def Shell.start (s : Server) (db : String) : Shell := ⟨s, db, []⟩

/-- The environment variables the script reads. -/
structure Env where
  MONGODB_USER : String
  MONGODB_PASSWORD : String
  MONGODB_DATABASE : String
deriving DecidableEq, Repr

/-- A piece of script: it either returns or throws, and in both cases leaves
a session state behind. -/
def Script (α : Type) : Type := Shell → Except JsError α × Shell

/-- Sequencing: a throw skips the rest. -/
def Script.bind {α β : Type} (m : Script α) (f : α → Script β) : Script β :=
  fun sh =>
    match m sh with
    | (.ok a, sh') => f a sh'
    | (.error e, sh') => (.error e, sh')

instance : Monad Script where
  pure a := fun sh => (.ok a, sh)
  bind := Script.bind

/-- The statement `throw e`. -/
def throwJs {α : Type} (e : JsError) : Script α := fun sh => (.error e, sh)

/-- The statement `try { body } catch (err) { handler err }`. -/
def tryCatchJs {α : Type} (body : Script α) (handler : JsError → Script α) :
    Script α :=
  fun sh =>
    match body sh with
    | (.ok a, sh') => (.ok a, sh')
    | (.error e, sh') => handler e sh'

/-- The builtin `print`. -/
def print (line : String) : Script Unit :=
  fun sh => (.ok (), { sh with trace := sh.trace ++ [.print line] })

/-- Issue a command: it fails with the outside fault if there is one,
otherwise it runs on the server. -/
def call (F : Faults) (c : Cmd) : Script JsVal :=
  fun sh =>
    match F c with
    | some e => (.error e, { sh with trace := sh.trace ++ [.call c (.error e)] })
    | none =>
      match exec c sh.server with
      | .error e =>
        (.error e, { sh with trace := sh.trace ++ [.call c (.error e)] })
      | .ok (v, s) =>
        (.ok v, { sh with server := s, trace := sh.trace ++ [.call c (.ok v)] })

/-- The helper `db.getSiblingDB(name)`: it does not reach the server, so no
outside fault applies to it; it raises on an invalid database name. -/
def dbGetSiblingDB (name : String) : Script JsVal := call noFaults (.getSiblingDB name)

/-- The statement `db = db.getSiblingDB(name)`: when the helper returns, the
global `db` is the database of that name. -/
def useSiblingDB (name : String) : Script Unit :=
  fun sh =>
    match dbGetSiblingDB name sh with
    | (.ok _, sh') => (.ok (), { sh' with db := name })
    | (.error e, sh') => (.error e, sh')

/-- The builtin `sleep(ms)`. -/
def sleep (F : Faults) (ms : Nat) : Script JsVal := call F (.sleep ms)

/-- The helper `db.getUser(user)` on the current database. -/
def dbGetUser (F : Faults) (user : String) : Script JsVal :=
  fun sh => call F (.getUser sh.db user) sh

/-- The helper `db.createUser({user, pwd, roles})` on the current database. -/
def dbCreateUser (F : Faults) (user pwd : String) (roles : List String) :
    Script JsVal :=
  fun sh => call F (.createUser sh.db user pwd roles) sh

/-- The helper `db.getCollectionNames()` on the current database. -/
def dbGetCollectionNames (F : Faults) : Script JsVal :=
  fun sh => call F (.getCollectionNames sh.db) sh

/-- The helper `db.createCollection(name)` on the current database. -/
def dbCreateCollection (F : Faults) (name : String) : Script JsVal :=
  fun sh => call F (.createCollection sh.db name) sh

/-- The helper `db.<coll>.createIndex(key, {name})` on the current
database. -/
def dbCreateIndex (F : Faults) (coll : String) (key : IndexKey)
    (name : String) : Script JsVal :=
  fun sh => call F (.createIndex sh.db coll key name) sh

/-! ## The script -/

/-- The key document passed to `createIndex`. -/
def vectorKey : IndexKey :=
  [("embedding",
    [("type", .str "vectorSearch"),
     ("numDimensions", .num 1536),
     ("similarity", .str "cosine")])]

/-- The body of the `try` block. -/
def tryBlock (F : Faults) (env : Env) : Script Unit := do
  -- Wait for MongoDB to be ready
  let _ ← sleep F 5000
  -- Switch to admin database
  useSiblingDB "admin"
  -- Create root user if it doesn't exist
  if !(← dbGetUser F env.MONGODB_USER).truthy then
    let _ ← dbCreateUser F env.MONGODB_USER env.MONGODB_PASSWORD ["root"]
  -- Switch to langchain database
  useSiblingDB env.MONGODB_DATABASE
  -- Create collections if they don't exist
  if !(← dbGetCollectionNames F).includes "vectors" then
    let _ ← dbCreateCollection F "vectors"
    print "Created vectors collection"
  -- Create vector search index
  let _ ← dbCreateIndex F "vectors" vectorKey "vector_index"
  print "Created vector search index"

/-- The whole script. -/
def initMongo (F : Faults) (env : Env) : Script Unit := do
  print "Starting MongoDB initialization..."
  tryCatchJs (tryBlock F env) (fun err => do
    print ("Error during initialization: " ++ err.toString)
    throwJs err)
  print "MongoDB initialization complete"

/-- The monad laws hold for scripts. -/
instance : LawfulMonad Script := LawfulMonad.mk' Script
  (by
    intro α x; funext sh
    show Script.bind x _ sh = x sh
    unfold Script.bind
    rcases h : x sh with ⟨r, sh'⟩
    cases r <;> rfl)
  (by intro α β a f; rfl)
  (by
    intro α β γ x f g; funext sh
    show Script.bind (Script.bind x f) g sh = Script.bind x (fun a => Script.bind (f a) g) sh
    unfold Script.bind
    rcases h : x sh with ⟨r, sh'⟩
    cases r <;> rfl)

/-! ## The commands of a run

The script issues at most six commands; their receivers and arguments are
fixed by the environment. -/

/-- The command `sleep(5000)`. -/
def cmdSleep : Cmd := .sleep 5000

/-- The command `getSiblingDB('admin')`. -/
def cmdUseAdmin : Cmd := .getSiblingDB "admin"

/-- The command `getSiblingDB` for the target database. -/
def cmdUseTarget (env : Env) : Cmd := .getSiblingDB env.MONGODB_DATABASE

/-- The command `getUser` on `admin`. -/
def cmdGetUser (env : Env) : Cmd := .getUser "admin" env.MONGODB_USER

/-- The command `createUser` on `admin`. -/
def cmdCreateUser (env : Env) : Cmd :=
  .createUser "admin" env.MONGODB_USER env.MONGODB_PASSWORD ["root"]

/-- The command `getCollectionNames` on the target database. -/
def cmdGetCollectionNames (env : Env) : Cmd :=
  .getCollectionNames env.MONGODB_DATABASE

/-- The command `createCollection('vectors')` on the target database. -/
def cmdCreateCollection (env : Env) : Cmd :=
  .createCollection env.MONGODB_DATABASE "vectors"

/-- The command `createIndex` on `vectors` of the target database. -/
def cmdCreateIndex (env : Env) : Cmd :=
  .createIndex env.MONGODB_DATABASE "vectors" vectorKey "vector_index"

/-! ## Observations on a run -/

/-- The lines printed, in order. -/
def printed (t : List Event) : List String :=
  t.filterMap fun ev => match ev with
    | .print l => some l
    | _ => none

/-- The commands issued, in order. -/
def issued (t : List Event) : List Cmd :=
  t.filterMap fun ev => match ev with
    | .call c _ => some c
    | _ => none

/-- The command is a `sleep`. -/
def Cmd.isSleep : Cmd → Bool
  | .sleep _ => true
  | _ => false

/-- The command is a `getSiblingDB`. -/
def Cmd.isGetSiblingDB : Cmd → Bool
  | .getSiblingDB _ => true
  | _ => false

/-- The command is a `createIndex`. -/
def Cmd.isCreateIndex : Cmd → Bool
  | .createIndex _ _ _ _ => true
  | _ => false

/-- The line starts with the given text. -/
def startsWith (pre line : String) : Prop := pre.data <+: line.data

instance (pre line : String) : Decidable (startsWith pre line) := by
  unfold startsWith; infer_instance

/-- A run of the script in a new session on server `s`, whose global `db` is
initially `db0`. -/
def run (F : Faults) (env : Env) (s : Server) (db0 : String) :
    Except JsError Unit × Shell :=
  initMongo F env (Shell.start s db0)

/-! ## The run as a decision tree

For the proofs the script is cut at its comments into three stages, and
each stage is written out as the tree of its possible paths: the error
raised (if any), the server afterwards, and the actions appended to the
trace.  `tryBlock_eq` and `initMongo_eq` below show that the script computes
exactly these. -/

/-- Result of a stage: the error raised, the server, the actions. -/
abbrev Stage := Option JsError × Server × List Event

/-- Lines 4 to 17: the wait, the switch to `admin`, the root user. -/
def userStage (F : Faults) (env : Env) (s : Server) : Stage :=
  match F cmdSleep with
  | some e => (some e, s, [.call cmdSleep (.error e)])
  | none =>
    match F (cmdGetUser env) with
    | some e =>
      (some e, s, [.call cmdSleep (.ok .undefined), .call cmdUseAdmin (.ok (.database "admin")),
        .call (cmdGetUser env) (.error e)])
    | none =>
      match (s "admin").users.lookup env.MONGODB_USER with
      | some doc =>
        (none, s, [.call cmdSleep (.ok .undefined), .call cmdUseAdmin (.ok (.database "admin")),
          .call (cmdGetUser env) (.ok (.user env.MONGODB_USER doc))])
      | none =>
        match F (cmdCreateUser env) with
        | some e =>
          (some e, s, [.call cmdSleep (.ok .undefined), .call cmdUseAdmin (.ok (.database "admin")),
            .call (cmdGetUser env) (.ok .null), .call (cmdCreateUser env) (.error e)])
        | none =>
          (none,
            s.setUsers "admin"
              ((s "admin").users.insert env.MONGODB_USER ⟨env.MONGODB_PASSWORD, ["root"]⟩),
            [.call cmdSleep (.ok .undefined), .call cmdUseAdmin (.ok (.database "admin")),
              .call (cmdGetUser env) (.ok .null), .call (cmdCreateUser env) (.ok .ok)])

/-- Lines 19 to 26: the switch to the target database, the collection. -/
def collStage (F : Faults) (env : Env) (s : Server) : Stage :=
  if validDatabaseName env.MONGODB_DATABASE then
    match F (cmdGetCollectionNames env) with
    | some e =>
      (some e, s, [.call (cmdUseTarget env) (.ok (.database env.MONGODB_DATABASE)),
        .call (cmdGetCollectionNames env) (.error e)])
    | none =>
      if "vectors" ∈ (s env.MONGODB_DATABASE).collections then
        (none, s, [.call (cmdUseTarget env) (.ok (.database env.MONGODB_DATABASE)),
          .call (cmdGetCollectionNames env)
            (.ok (.names (s env.MONGODB_DATABASE).collections.keys))])
      else
        match F (cmdCreateCollection env) with
        | some e =>
          (some e, s, [.call (cmdUseTarget env) (.ok (.database env.MONGODB_DATABASE)),
            .call (cmdGetCollectionNames env)
              (.ok (.names (s env.MONGODB_DATABASE).collections.keys)),
            .call (cmdCreateCollection env) (.error e)])
        | none =>
          (none,
            s.setCollections env.MONGODB_DATABASE
              ((s env.MONGODB_DATABASE).collections.insert "vectors" ⟨∅⟩),
            [.call (cmdUseTarget env) (.ok (.database env.MONGODB_DATABASE)),
              .call (cmdGetCollectionNames env)
                (.ok (.names (s env.MONGODB_DATABASE).collections.keys)),
              .call (cmdCreateCollection env) (.ok .ok),
              .print "Created vectors collection"])
  else
    (some (invalidDatabaseNameError env.MONGODB_DATABASE), s,
      [.call (cmdUseTarget env) (.error (invalidDatabaseNameError env.MONGODB_DATABASE))])

/-- Lines 28 to 41: the index. -/
def indexStage (F : Faults) (env : Env) (s : Server) : Stage :=
  match F (cmdCreateIndex env) with
  | some e => (some e, s, [.call (cmdCreateIndex env) (.error e)])
  | none =>
    match createIndexOn s env.MONGODB_DATABASE "vectors" vectorKey "vector_index" with
    | .error e => (some e, s, [.call (cmdCreateIndex env) (.error e)])
    | .ok (v, s') =>
      (none, s', [.call (cmdCreateIndex env) (.ok v), .print "Created vector search index"])

/-- One stage after another: an error ends the sequence. -/
def Stage.andThen (a : Stage) (f : Server → Stage) : Stage :=
  match a with
  | (some e, s, t) => (some e, s, t)
  | (none, s, t) => let b := f s; (b.1, b.2.1, t ++ b.2.2)

/-- The `try` block as a tree. -/
def tryStages (F : Faults) (env : Env) (s : Server) : Stage :=
  (userStage F env s).andThen fun s1 => (collStage F env s1).andThen (indexStage F env)

/-- The line printed last: the completion line after the `try` statement, or
the line of the `catch` clause. -/
def closingLine : Option JsError → String
  | none => "MongoDB initialization complete"
  | some e => "Error during initialization: " ++ e.toString

/-- The whole script as a tree. -/
def runStages (F : Faults) (env : Env) (s : Server) : Stage :=
  let a := tryStages F env s
  (a.1, a.2.1,
    .print "Starting MongoDB initialization..." :: (a.2.2 ++ [.print (closingLine a.1)]))

/-- The result of a script whose error, if any, is given. -/
def toResult : Option JsError → Except JsError Unit
  | none => .ok ()
  | some e => .error e

/-- The first part of the `try` block, as script. -/
def waitAndEnsureUser (F : Faults) (env : Env) : Script Unit := do
  let _ ← sleep F 5000
  useSiblingDB "admin"
  if !(← dbGetUser F env.MONGODB_USER).truthy then
    let _ ← dbCreateUser F env.MONGODB_USER env.MONGODB_PASSWORD ["root"]

/-- The second part of the `try` block, as script. -/
def ensureCollection (F : Faults) (env : Env) : Script Unit := do
  useSiblingDB env.MONGODB_DATABASE
  if !(← dbGetCollectionNames F).includes "vectors" then
    let _ ← dbCreateCollection F "vectors"
    print "Created vectors collection"

/-- The third part of the `try` block, as script. -/
def ensureIndex (F : Faults) : Script Unit := do
  let _ ← dbCreateIndex F "vectors" vectorKey "vector_index"
  print "Created vector search index"

/-- Script `m`, started in session `sh`, takes the path that the tree `g`
describes. -/
def Realizes (m : Script Unit) (g : Server → Stage) (sh : Shell) : Prop :=
  (m sh).1 = toResult (g sh.server).1 ∧
  (m sh).2.server = (g sh.server).2.1 ∧
  (m sh).2.trace = sh.trace ++ (g sh.server).2.2

/-! ## Notions used in the statements and proofs -/

/-- The collection a `createIndex` works on: the existing one, or a new
one. -/
def collectionOrNew (s : Server) (db coll : String) : Collection :=
  ((s db).collections.lookup coll).getD ⟨∅⟩

/-- The key of an index, by database, collection and index name. -/
def Server.index (s : Server) (db coll name : String) : Option IndexKey :=
  ((s db).collections.lookup coll).bind fun c => c.indexes.lookup name

/-- What a run leaves in place on the way from server `s` to server `s'`.
Only the configured user of `admin`, the collection `vectors` of the target
database and the index `vector_index` of that collection may be new. -/
structure Frame (env : Env) (s t : Server) : Prop where
  users_eq : ∀ db, db ≠ "admin" → (t db).users = (s db).users
  users_lookup : ∀ name, name ≠ env.MONGODB_USER →
    (t "admin").users.lookup name = (s "admin").users.lookup name
  user_kept : ∀ doc, (s "admin").users.lookup env.MONGODB_USER = some doc →
    (t "admin").users.lookup env.MONGODB_USER = some doc
  colls_eq : ∀ db, db ≠ env.MONGODB_DATABASE → (t db).collections = (s db).collections
  colls_lookup : ∀ name, name ≠ "vectors" →
    (t env.MONGODB_DATABASE).collections.lookup name =
      (s env.MONGODB_DATABASE).collections.lookup name
  vectors_kept : "vectors" ∈ (s env.MONGODB_DATABASE).collections →
    "vectors" ∈ (t env.MONGODB_DATABASE).collections
  index_lookup : ∀ name, name ≠ "vector_index" →
    t.index env.MONGODB_DATABASE "vectors" name = s.index env.MONGODB_DATABASE "vectors" name
  index_kept : ∀ k, s.index env.MONGODB_DATABASE "vectors" "vector_index" = some k →
    t.index env.MONGODB_DATABASE "vectors" "vector_index" = some k

/-- The server after the user stage. -/
def afterUser (F : Faults) (env : Env) (s : Server) : Server := (userStage F env s).2.1

/-- The server after the collection stage. -/
def afterColl (F : Faults) (env : Env) (s : Server) : Server :=
  (collStage F env (afterUser F env s)).2.1

/-- No command in the trace raised an error. -/
def okEvents (t : List Event) : Prop := ∀ c e, Event.call c (.error e) ∉ t

/-- Either the stage went through and no command raised, or it raised `e`
and the command that raised `e` is its last action, the only one that
raised. -/
def Shape (a : Stage) : Prop :=
  (a.1 = none ∧ okEvents a.2.2) ∨
  ∃ e c pre, a.1 = some e ∧ a.2.2 = pre ++ [.call c (.error e)] ∧ okEvents pre

/-- The lines a `try` block prints are its two progress lines. -/
def ProgressLines (t : List Event) : Prop :=
  ∀ l, Event.print l ∈ t → l = "Created vectors collection" ∨ l = "Created vector search index"

/-- The text that opens the line of the `catch` clause. -/
def errorPrefix : String := "Error during initialization: "

/-- A sample environment. -/
def sampleEnv : Env := ⟨"root", "secret", "langchain"⟩

/-- An environment whose target database name is not a valid database
name. -/
def invalidEnv : Env := ⟨"root", "secret", "lang.chain"⟩

/-- A sample error: the server rejects the command. -/
def sampleError : JsError := ⟨"MongoServerError", "command requires authentication"⟩

/-- The outside fault that rejects the command `c` with the sample error and
lets every other command through. -/
def failing (c : Cmd) : Faults := fun c' => if c' = c then some sampleError else none

/-- The configured user exists in `admin`, the collection `vectors` exists
in the target database, and its index `vector_index` has the key of the
script.  A database that holds a collection has a valid database name. -/
def FullyProvisioned (env : Env) (s : Server) : Prop :=
  env.MONGODB_USER ∈ (s "admin").users ∧
  "vectors" ∈ (s env.MONGODB_DATABASE).collections ∧
  s.index env.MONGODB_DATABASE "vectors" "vector_index" = some vectorKey ∧
  validDatabaseName env.MONGODB_DATABASE = true

/-- A provisioned server for the sample environment. -/
def provisionedServer : Server := fun db =>
  if db = "admin" then ⟨AList.singleton "root" ⟨"secret", ["root"]⟩, ∅⟩
  else if db = "langchain" then
    ⟨∅, AList.singleton "vectors" ⟨AList.singleton "vector_index" vectorKey⟩⟩
  else Database.empty

/-- The command is a `createUser`. -/
def Cmd.isCreateUser : Cmd → Bool
  | .createUser _ _ _ _ => true
  | _ => false

/-- The command is a `createCollection`. -/
def Cmd.isCreateCollection : Cmd → Bool
  | .createCollection _ _ => true
  | _ => false

/-- The command belongs to the steps up to the creation of the user:
`sleep`, `getUser`, `createUser`. -/
def Cmd.isUserStep : Cmd → Bool
  | .sleep _ => true
  | .getUser _ _ => true
  | .createUser _ _ _ _ => true
  | _ => false

/-- Two runs in succession: the second one, a new session, starts on the
server the first one left.  Each run has its own outside faults. -/
def runTwice (F1 F2 : Faults) (env : Env) (s : Server) (db0 : String) :
    (Except JsError Unit × Shell) × (Except JsError Unit × Shell) :=
  let first := run F1 env s db0
  (first, run F2 env first.2.server db0)

/-- In a run started on server `s`: `createUser` is issued only for a user
name absent from `s`, and it is issued exactly when `getUser` for the
configured name returned `null`. -/
def GuardedCreateUser (env : Env) (s : Server) (t : List Event) : Prop :=
  (∀ db user pwd roles o, Event.call (.createUser db user pwd roles) o ∈ t →
    user ∉ (s db).users) ∧
  ((∃ db user pwd roles o, Event.call (.createUser db user pwd roles) o ∈ t) ↔
    Event.call (.getUser "admin" env.MONGODB_USER) (.ok .null) ∈ t)

/-- None of the steps up to the creation of the user (`sleep`, `getUser`,
`createUser`) raised an error. -/
def UserStepPassed (t : List Event) : Prop :=
  ∀ c e, Event.call c (.error e) ∈ t → c.isUserStep = false

/-- The number of users of `admin` with the given name. -/
def userCount (s : Server) (name : String) : Nat := (s "admin").users.keys.count name

/-- In a run started on server `s`: `createCollection` is issued only for a
collection name absent from `s`, and it is issued exactly when
`getCollectionNames` returned names that do not include `vectors`. -/
def GuardedCreateCollection (env : Env) (s : Server) (t : List Event) : Prop :=
  (∀ db name o, Event.call (.createCollection db name) o ∈ t →
    name ∉ (s db).collections) ∧
  ((∃ db name o, Event.call (.createCollection db name) o ∈ t) ↔
    ∃ ns, Event.call (.getCollectionNames env.MONGODB_DATABASE) (.ok (.names ns)) ∈ t ∧
      "vectors" ∉ ns)

/-- None of the steps up to the creation of the collection (`sleep`,
`getUser`, `createUser`, `getCollectionNames`, `createCollection`) raised an
error. -/
def CollectionStepPassed (t : List Event) : Prop :=
  ∀ c e, Event.call c (.error e) ∈ t → c.isCreateIndex = true

/-- The number of collections of the target database named `vectors`. -/
def vectorsCount (env : Env) (s : Server) : Nat :=
  (s env.MONGODB_DATABASE).collections.keys.count "vectors"

/-! ## The script computes its decision tree -/

@[simp] theorem bind_apply {α β : Type} (m : Script α) (f : α → Script β) (sh : Shell) :
    (m >>= f) sh = match m sh with
      | (.ok a, sh') => f a sh'
      | (.error e, sh') => (.error e, sh') := rfl

@[simp] theorem pure_apply {α : Type} (a : α) (sh : Shell) :
    (pure a : Script α) sh = (.ok a, sh) := rfl

@[simp] theorem map_apply {α β : Type} (f : α → β) (m : Script α) (sh : Shell) :
    (f <$> m) sh = match m sh with
      | (.ok a, sh') => (.ok (f a), sh')
      | (.error e, sh') => (.error e, sh') := rfl

theorem tryBlock_stages (F : Faults) (env : Env) :
    tryBlock F env = (do waitAndEnsureUser F env; ensureCollection F env; ensureIndex F) := by
  simp only [tryBlock, waitAndEnsureUser, ensureCollection, ensureIndex, bind_assoc, pure_bind]
  congr 1; funext _; congr 1; funext _; congr 1; funext u
  split
  · simp only [bind_assoc, pure_bind]
    congr 1; funext _; congr 1; funext _; congr 1; funext v
    split <;> simp only [bind_assoc, pure_bind]
  · simp only [bind_assoc, pure_bind]
    congr 1; funext _; congr 1; funext v
    split <;> simp only [bind_assoc, pure_bind]

theorem Realizes.bind {m k : Script Unit} {g h : Server → Stage} {sh : Shell}
    (hm : Realizes m g sh) (hk : (g sh.server).1 = none → Realizes k h (m sh).2) :
    Realizes (m >>= fun _ => k) (fun s => (g s).andThen h) sh := by
  obtain ⟨m1, m2, m3⟩ := hm
  unfold Realizes at hk ⊢
  rw [bind_apply]
  rcases hms : m sh with ⟨rm, shm⟩
  rcases hg : g sh.server with ⟨eg, sg, tg⟩
  rw [hms, hg] at m1 m2 m3
  rw [hms, hg] at hk
  simp only at m1 m2 m3 hk
  simp only [Stage.andThen, hg]
  cases eg with
  | some e =>
    cases rm with
    | ok a => simp [toResult] at m1
    | error e' => exact ⟨m1, m2, m3⟩
  | none =>
    cases rm with
    | error e' => simp [toResult] at m1
    | ok a =>
      obtain ⟨k1, k2, k3⟩ := hk rfl
      subst m2
      refine ⟨k1, k2, ?_⟩
      rw [k3, m3, List.append_assoc]

theorem useSiblingDB_valid {name : String} (h : validDatabaseName name = true) (sh : Shell) :
    useSiblingDB name sh = (.ok (), { sh with db := name, trace := sh.trace ++
      [.call (.getSiblingDB name) (.ok (.database name))] }) := by
  simp [useSiblingDB, dbGetSiblingDB, call, noFaults, exec, h]

theorem useSiblingDB_invalid {name : String} (h : validDatabaseName name = false)
    (sh : Shell) :
    useSiblingDB name sh = (.error (invalidDatabaseNameError name), { sh with trace :=
      sh.trace ++ [.call (.getSiblingDB name) (.error (invalidDatabaseNameError name))] }) := by
  simp [useSiblingDB, dbGetSiblingDB, call, noFaults, exec, h]

theorem valid_admin : validDatabaseName "admin" = true := by decide

theorem waitAndEnsureUser_eq (F : Faults) (env : Env) (sh : Shell) :
    Realizes (waitAndEnsureUser F env) (userStage F env) sh := by
  simp only [Realizes, waitAndEnsureUser, bind_apply, pure_apply, sleep, call, exec,
    useSiblingDB_valid valid_admin, dbGetUser, dbCreateUser, userStage, cmdSleep, cmdGetUser,
    cmdCreateUser, cmdUseAdmin]
  cases h1 : F (.sleep 5000) with
  | some e => simp [toResult]
  | none =>
    cases h2 : F (.getUser "admin" env.MONGODB_USER) with
    | some e => simp [toResult]
    | none =>
      cases h3 : AList.lookup env.MONGODB_USER (sh.server "admin").users with
      | some doc => simp [toResult, JsVal.truthy, h3]
      | none =>
        have h3m : env.MONGODB_USER ∉ (sh.server "admin").users := AList.lookup_eq_none.mp h3
        cases h4 : F (.createUser "admin" env.MONGODB_USER env.MONGODB_PASSWORD ["root"]) with
        | some e => simp [toResult, JsVal.truthy, dbCreateUser, call, h4, h3]
        | none => simp [toResult, JsVal.truthy, dbCreateUser, call, h4, exec, h3m, h3]

theorem ensureCollection_eq (F : Faults) (env : Env) (sh : Shell) :
    Realizes (ensureCollection F env) (collStage F env) sh ∧
    ((collStage F env sh.server).1 = none →
      (ensureCollection F env sh).2.db = env.MONGODB_DATABASE) := by
  cases hv : validDatabaseName env.MONGODB_DATABASE with
  | false =>
    simp [Realizes, ensureCollection, useSiblingDB_invalid hv, collStage, hv, toResult,
      cmdUseTarget]
  | true =>
    simp only [Realizes, ensureCollection, bind_apply, pure_apply, call, exec,
      useSiblingDB_valid hv, dbGetCollectionNames, dbCreateCollection, collStage,
      cmdGetCollectionNames, cmdCreateCollection, cmdUseTarget, print, hv, if_true]
    cases h1 : F (.getCollectionNames env.MONGODB_DATABASE) with
    | some e => simp [toResult]
    | none =>
      by_cases h2 : "vectors" ∈ (sh.server env.MONGODB_DATABASE).collections
      · have h2k : "vectors" ∈ (sh.server env.MONGODB_DATABASE).collections.keys :=
          AList.mem_keys.mp h2
        simp [toResult, JsVal.includes, h2, h2k]
      · have h2k : "vectors" ∉ (sh.server env.MONGODB_DATABASE).collections.keys :=
          fun h => h2 (AList.mem_keys.mpr h)
        cases h4 : F (.createCollection env.MONGODB_DATABASE "vectors") with
        | some e => simp [toResult, JsVal.includes, h2, h2k, dbCreateCollection, call, h4]
        | none =>
          simp [toResult, JsVal.includes, h2, h2k, dbCreateCollection, call, h4, exec, print]

theorem ensureIndex_eq (F : Faults) (env : Env) (sh : Shell)
    (hdb : sh.db = env.MONGODB_DATABASE) :
    Realizes (ensureIndex F) (indexStage F env) sh := by
  simp only [Realizes, ensureIndex, bind_apply, pure_apply, call, exec, dbCreateIndex, indexStage,
    cmdCreateIndex, print, hdb]
  cases h1 : F (.createIndex env.MONGODB_DATABASE "vectors" vectorKey "vector_index") with
  | some e => simp [toResult]
  | none =>
    cases h2 : createIndexOn sh.server env.MONGODB_DATABASE "vectors" vectorKey "vector_index" <;>
      simp [toResult]

/-- The `try` block computes its tree. -/
theorem tryBlock_eq (F : Faults) (env : Env) (sh : Shell) :
    Realizes (tryBlock F env) (tryStages F env) sh := by
  rw [tryBlock_stages]
  have h := Realizes.bind (k := ensureCollection F env >>= fun _ => ensureIndex F)
    (h := fun s => (collStage F env s).andThen (indexStage F env))
    (waitAndEnsureUser_eq F env sh)
    (fun _ => Realizes.bind (ensureCollection_eq F env _).1
      (fun hc => ensureIndex_eq F env _ ((ensureCollection_eq F env _).2 hc)))
  exact h

/-- The script computes its tree. -/
theorem initMongo_eq (F : Faults) (env : Env) (sh : Shell) :
    Realizes (initMongo F env) (runStages F env) sh := by
  obtain ⟨t1, t2, t3⟩ := tryBlock_eq F env
    { sh with trace := sh.trace ++ [.print "Starting MongoDB initialization..."] }
  simp only [Realizes, initMongo, bind_apply, print, tryCatchJs, throwJs, runStages]
  rcases hb : tryBlock F env
    { sh with trace := sh.trace ++ [.print "Starting MongoDB initialization..."] } with ⟨r, sh'⟩
  rw [hb] at t1 t2 t3
  simp only at t1 t2 t3
  rcases hT : tryStages F env sh.server with ⟨e, s', t⟩
  rw [hT] at t1 t2 t3
  simp only at t1 t2 t3
  cases e with
  | some e =>
    cases r with
    | ok a => simp [toResult] at t1
    | error e' =>
      simp only [toResult, Except.error.injEq] at t1
      subst t1
      simp [toResult, closingLine, t2, t3]
  | none =>
    cases r with
    | error e' => simp [toResult] at t1
    | ok a => simp [toResult, closingLine, t2, t3]

/-- The result, final server and trace of a run, read off the tree. -/
theorem run_eq (F : Faults) (env : Env) (s : Server) (db0 : String) :
    (run F env s db0).1 = toResult (runStages F env s).1 ∧
    (run F env s db0).2.server = (runStages F env s).2.1 ∧
    (run F env s db0).2.trace = (runStages F env s).2.2 := by
  simpa [Realizes, run, Shell.start] using initMongo_eq F env (Shell.start s db0)

/-! ## Reading the server after an update -/

@[simp] theorem setUsers_users (s : Server) (db db' : String)
    (us : AList (fun _ : String => UserDoc)) :
    ((s.setUsers db us) db').users = if db' = db then us else (s db').users := by
  unfold Server.setUsers
  by_cases h : db' = db
  · subst h; simp
  · simp [Function.update_noteq h, h]

@[simp] theorem setUsers_collections (s : Server) (db db' : String)
    (us : AList (fun _ : String => UserDoc)) :
    ((s.setUsers db us) db').collections = (s db').collections := by
  unfold Server.setUsers
  by_cases h : db' = db
  · subst h; simp
  · simp [Function.update_noteq h]

@[simp] theorem setCollections_users (s : Server) (db db' : String)
    (cs : AList (fun _ : String => Collection)) :
    ((s.setCollections db cs) db').users = (s db').users := by
  unfold Server.setCollections
  by_cases h : db' = db
  · subst h; simp
  · simp [Function.update_noteq h]

@[simp] theorem setCollections_collections (s : Server) (db db' : String)
    (cs : AList (fun _ : String => Collection)) :
    ((s.setCollections db cs) db').collections =
      if db' = db then cs else (s db').collections := by
  unfold Server.setCollections
  by_cases h : db' = db
  · subst h; simp
  · simp [Function.update_noteq h, h]

/-! ## Composition of stages -/

theorem andThen_of_some {a : Stage} {f : Server → Stage} {e : JsError} (h : a.1 = some e) :
    a.andThen f = a := by
  rcases a with ⟨x, s, t⟩
  simp only at h
  subst h
  rfl

theorem andThen_of_none {a : Stage} {f : Server → Stage} (h : a.1 = none) :
    a.andThen f = ((f a.2.1).1, (f a.2.1).2.1, a.2.2 ++ (f a.2.1).2.2) := by
  rcases a with ⟨x, s, t⟩
  simp only at h
  subst h
  rfl

/-- A reflexive and transitive relation between servers that every stage
respects is respected by their sequence. -/
theorem andThen_rel {R : Server → Server → Prop} (htrans : ∀ a b c, R a b → R b c → R a c)
    {s : Server} {a : Stage} {f : Server → Stage} (ha : R s a.2.1)
    (hf : ∀ s1, R s1 (f s1).2.1) : R s (a.andThen f).2.1 := by
  cases h : a.1 with
  | some e => rw [andThen_of_some h]; exact ha
  | none => rw [andThen_of_none h]; exact htrans _ _ _ ha (hf _)

/-! ## `createIndex` on the server -/

theorem createIndexOn_same {s : Server} {db coll name : String} {key : IndexKey}
    (h : (collectionOrNew s db coll).indexes.lookup name = some key) :
    createIndexOn s db coll key name = .ok (.ok, s) := by
  unfold collectionOrNew at h
  simp [createIndexOn, h]

/-- A successful `createIndex` either found the identical index and left the
server alone, or added the index. -/
theorem createIndexOn_ok {s s' : Server} {db coll name : String} {key : IndexKey} {v : JsVal}
    (h : createIndexOn s db coll key name = .ok (v, s')) :
    v = .ok ∧
    (((collectionOrNew s db coll).indexes.lookup name = some key ∧ s' = s) ∨
     ((collectionOrNew s db coll).indexes.lookup name = none ∧
      s' = s.setCollections db ((s db).collections.insert coll
        ⟨(collectionOrNew s db coll).indexes.insert name key⟩))) := by
  unfold createIndexOn at h
  simp only at h
  unfold collectionOrNew
  split at h
  · rename_i k hk
    split at h
    · rename_i hkk
      simp only [Except.ok.injEq, Prod.mk.injEq] at h
      subst hkk
      exact ⟨h.1.symm, Or.inl ⟨hk, h.2.symm⟩⟩
    · simp at h
  · rename_i hk
    split at h
    · simp at h
    · simp only [Except.ok.injEq, Prod.mk.injEq] at h
      exact ⟨h.1.symm, Or.inr ⟨hk, h.2.symm⟩⟩

/-! ## What a run may change -/

theorem Frame.refl (env : Env) (s : Server) : Frame env s s :=
  ⟨fun _ _ => rfl, fun _ _ => rfl, fun _ h => h, fun _ _ => rfl, fun _ _ => rfl, fun h => h,
    fun _ _ => rfl, fun _ h => h⟩

theorem Frame.trans {env : Env} (a b c : Server) (h1 : Frame env a b) (h2 : Frame env b c) :
    Frame env a c where
  users_eq db h := (h2.users_eq db h).trans (h1.users_eq db h)
  users_lookup n h := (h2.users_lookup n h).trans (h1.users_lookup n h)
  user_kept doc h := h2.user_kept doc (h1.user_kept doc h)
  colls_eq db h := (h2.colls_eq db h).trans (h1.colls_eq db h)
  colls_lookup n h := (h2.colls_lookup n h).trans (h1.colls_lookup n h)
  vectors_kept h := h2.vectors_kept (h1.vectors_kept h)
  index_lookup n h := (h2.index_lookup n h).trans (h1.index_lookup n h)
  index_kept k h := h2.index_kept k (h1.index_kept k h)

/-- Adding the configured user to `admin`, when absent, is within the frame. -/
theorem frame_insert_user (env : Env) (s : Server) (doc : UserDoc)
    (h : (s "admin").users.lookup env.MONGODB_USER = none) :
    Frame env s (s.setUsers "admin" ((s "admin").users.insert env.MONGODB_USER doc)) where
  users_eq db hdb := by simp [hdb]
  users_lookup n hn := by simp [AList.lookup_insert_ne hn]
  user_kept d hd := by rw [h] at hd; cases hd
  colls_eq db _ := by simp
  colls_lookup n _ := by simp
  vectors_kept hv := by simpa using hv
  index_lookup n _ := by simp [Server.index]
  index_kept k hk := by simpa [Server.index] using hk

/-- Adding the empty collection `vectors` to the target database, when
absent, is within the frame. -/
theorem frame_insert_collection (env : Env) (s : Server)
    (h : "vectors" ∉ (s env.MONGODB_DATABASE).collections) :
    Frame env s (s.setCollections env.MONGODB_DATABASE
      ((s env.MONGODB_DATABASE).collections.insert "vectors" ⟨∅⟩)) where
  users_eq db _ := by simp
  users_lookup n _ := by simp
  user_kept d hd := by simpa using hd
  colls_eq db hdb := by simp [hdb]
  colls_lookup n hn := by simp [AList.lookup_insert_ne hn]
  vectors_kept hv := absurd hv h
  index_lookup n _ := by
    simp [Server.index, AList.lookup_insert, AList.lookup_eq_none.mpr h]
  index_kept k hk := by
    simp [Server.index, AList.lookup_eq_none.mpr h] at hk

/-- Adding the index `vector_index` to `vectors`, when the collection has no
index of that name, is within the frame. -/
theorem frame_insert_index (env : Env) (s : Server) (key : IndexKey)
    (h : (collectionOrNew s env.MONGODB_DATABASE "vectors").indexes.lookup "vector_index" = none) :
    Frame env s (s.setCollections env.MONGODB_DATABASE
      ((s env.MONGODB_DATABASE).collections.insert "vectors"
        ⟨(collectionOrNew s env.MONGODB_DATABASE "vectors").indexes.insert
          "vector_index" key⟩)) where
  users_eq db _ := by simp
  users_lookup n _ := by simp
  user_kept d hd := by simpa using hd
  colls_eq db hdb := by simp [hdb]
  colls_lookup n hn := by simp [AList.lookup_insert_ne hn]
  vectors_kept _ := by simp [AList.mem_insert]
  index_lookup n hn := by
    simp only [Server.index, setCollections_collections, if_true, AList.lookup_insert,
      Option.some_bind, AList.lookup_insert_ne hn, collectionOrNew]
    cases (s env.MONGODB_DATABASE).collections.lookup "vectors" <;> simp
  index_kept k hk := by
    unfold collectionOrNew at h
    unfold Server.index at hk
    cases hc : (s env.MONGODB_DATABASE).collections.lookup "vectors" with
    | none => rw [hc] at hk; simp at hk
    | some c => rw [hc] at h hk; simp at h hk; rw [h] at hk; cases hk

/-! ## The paths of each stage -/

/-- The five paths of the user stage. -/
theorem userStage_cases (F : Faults) (env : Env) (s : Server) :
    (∃ e, F cmdSleep = some e ∧
      userStage F env s = (some e, s, [.call cmdSleep (.error e)])) ∨
    (∃ e, F cmdSleep = none ∧ F (cmdGetUser env) = some e ∧
      userStage F env s = (some e, s, [.call cmdSleep (.ok .undefined), .call cmdUseAdmin (.ok (.database "admin")),
        .call (cmdGetUser env) (.error e)])) ∨
    (∃ doc, F cmdSleep = none ∧ F (cmdGetUser env) = none ∧
      (s "admin").users.lookup env.MONGODB_USER = some doc ∧
      userStage F env s = (none, s, [.call cmdSleep (.ok .undefined), .call cmdUseAdmin (.ok (.database "admin")),
        .call (cmdGetUser env) (.ok (.user env.MONGODB_USER doc))])) ∨
    (∃ e, F cmdSleep = none ∧ F (cmdGetUser env) = none ∧
      (s "admin").users.lookup env.MONGODB_USER = none ∧ F (cmdCreateUser env) = some e ∧
      userStage F env s = (some e, s, [.call cmdSleep (.ok .undefined), .call cmdUseAdmin (.ok (.database "admin")),
        .call (cmdGetUser env) (.ok .null), .call (cmdCreateUser env) (.error e)])) ∨
    (F cmdSleep = none ∧ F (cmdGetUser env) = none ∧
      (s "admin").users.lookup env.MONGODB_USER = none ∧ F (cmdCreateUser env) = none ∧
      userStage F env s = (none,
        s.setUsers "admin"
          ((s "admin").users.insert env.MONGODB_USER ⟨env.MONGODB_PASSWORD, ["root"]⟩),
        [.call cmdSleep (.ok .undefined), .call cmdUseAdmin (.ok (.database "admin")),
          .call (cmdGetUser env) (.ok .null), .call (cmdCreateUser env) (.ok .ok)])) := by
  unfold userStage
  cases h1 : F cmdSleep with
  | some e => exact Or.inl ⟨e, rfl, rfl⟩
  | none =>
    cases h2 : F (cmdGetUser env) with
    | some e => exact Or.inr (Or.inl ⟨e, rfl, rfl, rfl⟩)
    | none =>
      cases h3 : (s "admin").users.lookup env.MONGODB_USER with
      | some doc => exact Or.inr (Or.inr (Or.inl ⟨doc, rfl, rfl, rfl, rfl⟩))
      | none =>
        cases h4 : F (cmdCreateUser env) with
        | some e => exact Or.inr (Or.inr (Or.inr (Or.inl ⟨e, rfl, rfl, rfl, rfl, rfl⟩)))
        | none => exact Or.inr (Or.inr (Or.inr (Or.inr ⟨rfl, rfl, rfl, rfl, rfl⟩)))

/-- The five paths of the collection stage. -/
theorem collStage_cases (F : Faults) (env : Env) (s : Server) :
    (validDatabaseName env.MONGODB_DATABASE = false ∧
      collStage F env s = (some (invalidDatabaseNameError env.MONGODB_DATABASE), s,
        [.call (cmdUseTarget env) (.error (invalidDatabaseNameError env.MONGODB_DATABASE))])) ∨
    (∃ e, validDatabaseName env.MONGODB_DATABASE = true ∧
      F (cmdGetCollectionNames env) = some e ∧
      collStage F env s = (some e, s,
        [.call (cmdUseTarget env) (.ok (.database env.MONGODB_DATABASE)),
          .call (cmdGetCollectionNames env) (.error e)])) ∨
    (validDatabaseName env.MONGODB_DATABASE = true ∧
      F (cmdGetCollectionNames env) = none ∧
      "vectors" ∈ (s env.MONGODB_DATABASE).collections ∧
      collStage F env s = (none, s,
        [.call (cmdUseTarget env) (.ok (.database env.MONGODB_DATABASE)),
          .call (cmdGetCollectionNames env)
            (.ok (.names (s env.MONGODB_DATABASE).collections.keys))])) ∨
    (∃ e, validDatabaseName env.MONGODB_DATABASE = true ∧
      F (cmdGetCollectionNames env) = none ∧
      "vectors" ∉ (s env.MONGODB_DATABASE).collections ∧
      F (cmdCreateCollection env) = some e ∧
      collStage F env s = (some e, s,
        [.call (cmdUseTarget env) (.ok (.database env.MONGODB_DATABASE)),
          .call (cmdGetCollectionNames env)
            (.ok (.names (s env.MONGODB_DATABASE).collections.keys)),
          .call (cmdCreateCollection env) (.error e)])) ∨
    (validDatabaseName env.MONGODB_DATABASE = true ∧
      F (cmdGetCollectionNames env) = none ∧
      "vectors" ∉ (s env.MONGODB_DATABASE).collections ∧
      F (cmdCreateCollection env) = none ∧
      collStage F env s = (none,
        s.setCollections env.MONGODB_DATABASE
          ((s env.MONGODB_DATABASE).collections.insert "vectors" ⟨∅⟩),
        [.call (cmdUseTarget env) (.ok (.database env.MONGODB_DATABASE)),
          .call (cmdGetCollectionNames env)
            (.ok (.names (s env.MONGODB_DATABASE).collections.keys)),
          .call (cmdCreateCollection env) (.ok .ok),
          .print "Created vectors collection"])) := by
  unfold collStage
  cases hv : validDatabaseName env.MONGODB_DATABASE with
  | false => exact Or.inl ⟨rfl, by simp⟩
  | true =>
    right
    cases h1 : F (cmdGetCollectionNames env) with
    | some e => exact Or.inl ⟨e, rfl, rfl, by simp⟩
    | none =>
      by_cases h2 : "vectors" ∈ (s env.MONGODB_DATABASE).collections
      · exact Or.inr (Or.inl ⟨rfl, rfl, h2, by simp [h2]⟩)
      · cases h3 : F (cmdCreateCollection env) with
        | some e => exact Or.inr (Or.inr (Or.inl ⟨e, rfl, rfl, h2, rfl, by simp [h2]⟩))
        | none => exact Or.inr (Or.inr (Or.inr ⟨rfl, rfl, h2, rfl, by simp [h2]⟩))

/-- The three paths of the index stage. -/
theorem indexStage_cases (F : Faults) (env : Env) (s : Server) :
    (∃ e, F (cmdCreateIndex env) = some e ∧
      indexStage F env s = (some e, s, [.call (cmdCreateIndex env) (.error e)])) ∨
    (∃ e, F (cmdCreateIndex env) = none ∧
      createIndexOn s env.MONGODB_DATABASE "vectors" vectorKey "vector_index" = .error e ∧
      indexStage F env s = (some e, s, [.call (cmdCreateIndex env) (.error e)])) ∨
    (∃ v t, F (cmdCreateIndex env) = none ∧
      createIndexOn s env.MONGODB_DATABASE "vectors" vectorKey "vector_index" = .ok (v, t) ∧
      indexStage F env s = (none, t,
        [.call (cmdCreateIndex env) (.ok v), .print "Created vector search index"])) := by
  unfold indexStage
  cases h1 : F (cmdCreateIndex env) with
  | some e => exact Or.inl ⟨e, rfl, rfl⟩
  | none =>
    cases h2 : createIndexOn s env.MONGODB_DATABASE "vectors" vectorKey "vector_index" with
    | error e => exact Or.inr (Or.inl ⟨e, rfl, rfl, rfl⟩)
    | ok r => exact Or.inr (Or.inr ⟨r.1, r.2, rfl, rfl, rfl⟩)

/-! ## The stages and the server -/

theorem userStage_frame (F : Faults) (env : Env) (s : Server) :
    Frame env s (userStage F env s).2.1 := by
  unfold userStage
  split
  · exact Frame.refl env s
  · split
    · exact Frame.refl env s
    · split
      · exact Frame.refl env s
      · rename_i h
        split
        · exact Frame.refl env s
        · exact frame_insert_user env s _ h

theorem collStage_frame (F : Faults) (env : Env) (s : Server) :
    Frame env s (collStage F env s).2.1 := by
  rcases collStage_cases F env s with ⟨_, h⟩ | ⟨e, _, _, h⟩ | ⟨_, _, _, h⟩ |
    ⟨e, _, _, _, _, h⟩ | ⟨_, _, habs, _, h⟩
  · rw [h]; exact Frame.refl env s
  · rw [h]; exact Frame.refl env s
  · rw [h]; exact Frame.refl env s
  · rw [h]; exact Frame.refl env s
  · rw [h]; exact frame_insert_collection env s habs

theorem indexStage_frame (F : Faults) (env : Env) (s : Server) :
    Frame env s (indexStage F env s).2.1 := by
  unfold indexStage
  split
  · exact Frame.refl env s
  · split
    · exact Frame.refl env s
    · rename_i v s' h
      rcases (createIndexOn_ok h).2 with ⟨_, hs⟩ | ⟨hn, hs⟩
      · rw [hs]; exact Frame.refl env s
      · rw [hs]; exact frame_insert_index env s vectorKey hn

theorem tryStages_frame (F : Faults) (env : Env) (s : Server) :
    Frame env s (tryStages F env s).2.1 := by
  unfold tryStages
  exact andThen_rel (R := Frame env) Frame.trans (userStage_frame F env s)
    (fun s1 => andThen_rel (R := Frame env) Frame.trans (collStage_frame F env s1)
      (indexStage_frame F env))

/-- Every run stays within the frame. -/
theorem run_frame (F : Faults) (env : Env) (s : Server) (db0 : String) :
    Frame env s (run F env s db0).2.server := by
  rw [(run_eq F env s db0).2.1]
  exact tryStages_frame F env s

/-- The user stage, when it does not fail, leaves the configured user in
`admin`. -/
theorem userStage_ok {F : Faults} {env : Env} {s : Server}
    (h : (userStage F env s).1 = none) :
    env.MONGODB_USER ∈ ((userStage F env s).2.1 "admin").users := by
  unfold userStage at h ⊢
  cases h1 : F cmdSleep with
  | some e => simp [h1] at h
  | none =>
    cases h2 : F (cmdGetUser env) with
    | some e => simp [h1, h2] at h
    | none =>
      cases h3 : (s "admin").users.lookup env.MONGODB_USER with
      | some doc =>
        simp only [h3]
        exact AList.lookup_isSome.mp (by rw [h3]; rfl)
      | none =>
        cases h4 : F (cmdCreateUser env) with
        | some e => simp [h1, h2, h3, h4] at h
        | none => simp [h3, AList.mem_insert]

/-- The collection stage, when it does not fail, leaves `vectors` in the
target database, whose name is then a valid database name. -/
theorem collStage_ok {F : Faults} {env : Env} {s : Server}
    (h : (collStage F env s).1 = none) :
    "vectors" ∈ ((collStage F env s).2.1 env.MONGODB_DATABASE).collections ∧
    validDatabaseName env.MONGODB_DATABASE = true := by
  rcases collStage_cases F env s with ⟨_, hs⟩ | ⟨e, _, _, hs⟩ | ⟨hv, _, hmem, hs⟩ |
    ⟨e, _, _, _, _, hs⟩ | ⟨hv, _, habs, _, hs⟩
  · rw [hs] at h; cases h
  · rw [hs] at h; cases h
  · rw [hs]; exact ⟨hmem, hv⟩
  · rw [hs] at h; cases h
  · rw [hs]; exact ⟨by simp [AList.mem_insert], hv⟩

/-- The index stage, when it does not fail, leaves the index `vector_index`
with the key of the script on `vectors`. -/
theorem indexStage_ok {F : Faults} {env : Env} {s : Server}
    (h : (indexStage F env s).1 = none) :
    (indexStage F env s).2.1.index env.MONGODB_DATABASE "vectors" "vector_index" =
      some vectorKey := by
  unfold indexStage at h ⊢
  cases h1 : F (cmdCreateIndex env) with
  | some e => simp [h1] at h
  | none =>
    cases hc : createIndexOn s env.MONGODB_DATABASE "vectors" vectorKey "vector_index" with
    | error e => simp [h1, hc] at h
    | ok r =>
      obtain ⟨v, s'⟩ := r
      simp only []
      rcases (createIndexOn_ok hc).2 with ⟨hk, hs⟩ | ⟨hn, hs⟩
      · rw [hs]
        unfold collectionOrNew at hk
        unfold Server.index
        cases hl : (s env.MONGODB_DATABASE).collections.lookup "vectors" with
        | none => rw [hl] at hk; simp at hk
        | some c => rw [hl] at hk; simpa using hk
      · rw [hs]
        simp [Server.index, AList.lookup_insert]

/-! ## The three ways through the `try` block -/

/-- The `try` block stops in the user stage, or in the collection stage, or
reaches the index stage. -/
theorem tryStages_cases (F : Faults) (env : Env) (s : Server) :
    (∃ e, (userStage F env s).1 = some e ∧ tryStages F env s = userStage F env s) ∨
    ((userStage F env s).1 = none ∧
      ∃ e, (collStage F env (afterUser F env s)).1 = some e ∧
        tryStages F env s = (some e, afterColl F env s,
          (userStage F env s).2.2 ++ (collStage F env (afterUser F env s)).2.2)) ∨
    ((userStage F env s).1 = none ∧ (collStage F env (afterUser F env s)).1 = none ∧
      tryStages F env s =
        ((indexStage F env (afterColl F env s)).1, (indexStage F env (afterColl F env s)).2.1,
          (userStage F env s).2.2 ++ ((collStage F env (afterUser F env s)).2.2 ++
            (indexStage F env (afterColl F env s)).2.2))) := by
  unfold tryStages afterColl afterUser
  cases hu : (userStage F env s).1 with
  | some e => exact Or.inl ⟨e, rfl, andThen_of_some hu⟩
  | none =>
    rw [andThen_of_none hu]
    cases hc : (collStage F env (userStage F env s).2.1).1 with
    | some e =>
      refine Or.inr (Or.inl ⟨rfl, e, rfl, ?_⟩)
      rw [andThen_of_some hc, hc]
    | none =>
      refine Or.inr (Or.inr ⟨rfl, rfl, ?_⟩)
      rw [andThen_of_none hc]

/-- A `try` block that does not fail leaves the user, the collection and the
index in place. -/
theorem tryStages_ok {F : Faults} {env : Env} {s : Server}
    (h : (tryStages F env s).1 = none) :
    env.MONGODB_USER ∈ ((tryStages F env s).2.1 "admin").users ∧
    "vectors" ∈ ((tryStages F env s).2.1 env.MONGODB_DATABASE).collections ∧
    (tryStages F env s).2.1.index env.MONGODB_DATABASE "vectors" "vector_index" =
      some vectorKey := by
  rcases tryStages_cases F env s with ⟨e, he, hs⟩ | ⟨_, e, _, hs⟩ | ⟨hu, hc, hs⟩
  · rw [hs, he] at h; cases h
  · rw [hs] at h; cases h
  · rw [hs] at h ⊢
    simp only at h ⊢
    have fi := indexStage_frame F env (afterColl F env s)
    have fc := collStage_frame F env (afterUser F env s)
    have hU := userStage_ok hu
    have hC := (collStage_ok hc).1
    refine ⟨?_, fi.vectors_kept hC, indexStage_ok h⟩
    obtain ⟨doc, hdoc⟩ := Option.isSome_iff_exists.mp (AList.lookup_isSome.mpr hU)
    exact AList.lookup_isSome.mp
      (by rw [fi.user_kept doc (fc.user_kept doc hdoc)]; rfl)

/-! ## Runs in which nothing fails -/

theorem getLast?_cons_concat {α : Type} (a b : α) (l : List α) :
    (a :: (l ++ [b])).getLast? = some b := by
  rw [← List.cons_append, List.getLast?_concat]

theorem lookup_singleton_self {β : Type} (a : String) (b : β) :
    (AList.singleton a b : AList (fun _ : String => β)).lookup a = some b := by
  rw [← AList.insert_empty]
  exact AList.lookup_insert _

/-- On the empty server, with no outside fault, the `try` block goes
through. -/
theorem tryStages_empty (env : Env) (hv : validDatabaseName env.MONGODB_DATABASE = true) :
    (tryStages noFaults env Server.empty).1 = none := by
  simp [tryStages, userStage, collStage, indexStage, Stage.andThen, noFaults, Server.empty,
    Database.empty, createIndexOn, Collection.nameOfKey, lookup_singleton_self, hv]

/-! ## A run on the empty server -/

/-- C1, as amended: for every configuration whose target database name is a
valid database name, on the empty server, when no command fails, the run
ends without an error; afterwards the configured user exists in `admin`, the
target database contains the collection `vectors`, the index `vector_index`
exists on it, and the last line printed is the completion line. -/
theorem empty_database_provisioned (env : Env) (db0 : String)
    (hv : validDatabaseName env.MONGODB_DATABASE = true) :
    (run noFaults env Server.empty db0).1 = .ok () ∧
    env.MONGODB_USER ∈ ((run noFaults env Server.empty db0).2.server "admin").users ∧
    "vectors" ∈ ((run noFaults env Server.empty db0).2.server env.MONGODB_DATABASE).collections ∧
    (∃ c, ((run noFaults env Server.empty db0).2.server env.MONGODB_DATABASE).collections.lookup
        "vectors" = some c ∧ "vector_index" ∈ c.indexes) ∧
    (printed (run noFaults env Server.empty db0).2.trace).getLast? =
      some "MongoDB initialization complete" := by
  obtain ⟨h1, h2, h3⟩ := run_eq noFaults env Server.empty db0
  have hok := tryStages_empty env hv
  obtain ⟨hu, hc, hi⟩ := tryStages_ok hok
  rw [h1, h2, h3]
  refine ⟨by simp [runStages, hok, toResult], hu, hc, ?_, ?_⟩
  · simp only [runStages]
    unfold Server.index at hi
    cases hl : ((tryStages noFaults env Server.empty).2.1 env.MONGODB_DATABASE).collections.lookup
        "vectors" with
    | none => rw [hl] at hi; simp at hi
    | some c =>
      rw [hl] at hi
      exact ⟨c, rfl, AList.lookup_isSome.mp (by simp at hi; rw [hi]; rfl)⟩
  · simp only [runStages, hok, closingLine, printed, List.filterMap_append, List.filterMap_cons,
      List.filterMap_nil]
    exact getLast?_cons_concat _ _ _

/-! ## The shape of a trace -/

theorem okEvents_append {t u : List Event} (ht : okEvents t) (hu : okEvents u) :
    okEvents (t ++ u) := by
  intro c e h
  rcases List.mem_append.mp h with h | h
  · exact ht c e h
  · exact hu c e h

theorem progressLines_append {t u : List Event} (ht : ProgressLines t) (hu : ProgressLines u) :
    ProgressLines (t ++ u) := by
  intro l h
  rcases List.mem_append.mp h with h | h
  · exact ht l h
  · exact hu l h

theorem userStage_shape (F : Faults) (env : Env) (s : Server) : Shape (userStage F env s) := by
  rcases userStage_cases F env s with ⟨e, _, h⟩ | ⟨e, _, _, h⟩ | ⟨doc, _, _, _, h⟩ |
    ⟨e, _, _, _, _, h⟩ | ⟨_, _, _, _, h⟩
  · rw [h]; exact Or.inr ⟨e, _, [], rfl, rfl, by simp [okEvents]⟩
  · rw [h]
    exact Or.inr ⟨e, _, [.call cmdSleep (.ok .undefined),
      .call cmdUseAdmin (.ok (.database "admin"))], rfl, rfl, by simp [okEvents]⟩
  · rw [h]; exact Or.inl ⟨rfl, by simp [okEvents]⟩
  · rw [h]
    exact Or.inr ⟨e, _, [.call cmdSleep (.ok .undefined),
      .call cmdUseAdmin (.ok (.database "admin")),
      .call (cmdGetUser env) (.ok .null)], rfl, rfl, by simp [okEvents]⟩
  · rw [h]; exact Or.inl ⟨rfl, by simp [okEvents]⟩

theorem collStage_shape (F : Faults) (env : Env) (s : Server) : Shape (collStage F env s) := by
  rcases collStage_cases F env s with ⟨_, h⟩ | ⟨e, _, _, h⟩ | ⟨_, _, _, h⟩ |
    ⟨e, _, _, _, _, h⟩ | ⟨_, _, _, _, h⟩
  · rw [h]; exact Or.inr ⟨_, _, [], rfl, rfl, by simp [okEvents]⟩
  · rw [h]
    exact Or.inr ⟨e, _, [.call (cmdUseTarget env) (.ok (.database env.MONGODB_DATABASE))],
      rfl, rfl, by simp [okEvents]⟩
  · rw [h]; exact Or.inl ⟨rfl, by simp [okEvents]⟩
  · rw [h]
    exact Or.inr ⟨e, _, [.call (cmdUseTarget env) (.ok (.database env.MONGODB_DATABASE)),
      .call (cmdGetCollectionNames env)
        (.ok (.names (s env.MONGODB_DATABASE).collections.keys))], rfl, rfl,
      by simp [okEvents]⟩
  · rw [h]; exact Or.inl ⟨rfl, by simp [okEvents]⟩

theorem indexStage_shape (F : Faults) (env : Env) (s : Server) :
    Shape (indexStage F env s) := by
  rcases indexStage_cases F env s with ⟨e, _, h⟩ | ⟨e, _, _, h⟩ | ⟨v, t, _, _, h⟩
  · rw [h]; exact Or.inr ⟨e, _, [], rfl, rfl, by simp [okEvents]⟩
  · rw [h]; exact Or.inr ⟨e, _, [], rfl, rfl, by simp [okEvents]⟩
  · rw [h]; exact Or.inl ⟨rfl, by simp [okEvents]⟩

theorem andThen_shape {a : Stage} {f : Server → Stage} (ha : Shape a)
    (hf : ∀ s, Shape (f s)) : Shape (a.andThen f) := by
  rcases ha with ⟨h, hok⟩ | ⟨e, c, pre, h, ht, hok⟩
  · rw [andThen_of_none h]
    rcases hf a.2.1 with ⟨h2, hok2⟩ | ⟨e, c, pre, h2, ht2, hok2⟩
    · exact Or.inl ⟨h2, okEvents_append hok hok2⟩
    · refine Or.inr ⟨e, c, a.2.2 ++ pre, h2, ?_, okEvents_append hok hok2⟩
      simp only [ht2, List.append_assoc]
  · rw [andThen_of_some h]
    exact Or.inr ⟨e, c, pre, h, ht, hok⟩

theorem tryStages_shape (F : Faults) (env : Env) (s : Server) : Shape (tryStages F env s) :=
  andThen_shape (userStage_shape F env s)
    (fun s1 => andThen_shape (collStage_shape F env s1) (indexStage_shape F env))

theorem userStage_lines (F : Faults) (env : Env) (s : Server) :
    ProgressLines (userStage F env s).2.2 := by
  rcases userStage_cases F env s with ⟨e, _, h⟩ | ⟨e, _, _, h⟩ | ⟨doc, _, _, _, h⟩ |
    ⟨e, _, _, _, _, h⟩ | ⟨_, _, _, _, h⟩ <;> rw [h] <;> simp [ProgressLines]

theorem collStage_lines (F : Faults) (env : Env) (s : Server) :
    ProgressLines (collStage F env s).2.2 := by
  rcases collStage_cases F env s with ⟨_, h⟩ | ⟨e, _, _, h⟩ | ⟨_, _, _, h⟩ |
    ⟨e, _, _, _, _, h⟩ | ⟨_, _, _, _, h⟩ <;> rw [h] <;> simp [ProgressLines]

theorem indexStage_lines (F : Faults) (env : Env) (s : Server) :
    ProgressLines (indexStage F env s).2.2 := by
  rcases indexStage_cases F env s with ⟨e, _, h⟩ | ⟨e, _, _, h⟩ | ⟨v, t, _, _, h⟩ <;>
    rw [h] <;> simp [ProgressLines]

theorem andThen_lines {a : Stage} {f : Server → Stage} (ha : ProgressLines a.2.2)
    (hf : ∀ s, ProgressLines (f s).2.2) : ProgressLines (a.andThen f).2.2 := by
  cases h : a.1 with
  | some e => rw [andThen_of_some h]; exact ha
  | none => rw [andThen_of_none h]; exact progressLines_append ha (hf _)

theorem tryStages_lines (F : Faults) (env : Env) (s : Server) :
    ProgressLines (tryStages F env s).2.2 :=
  andThen_lines (userStage_lines F env s)
    (fun s1 => andThen_lines (collStage_lines F env s1) (indexStage_lines F env))

/-! ## Printed lines -/

theorem mem_printed {l : String} {t : List Event} : l ∈ printed t ↔ Event.print l ∈ t := by
  unfold printed
  rw [List.mem_filterMap]
  constructor
  · rintro ⟨ev, hev, h⟩
    cases ev with
    | print l' => simp only [Option.some.injEq] at h; subst h; exact hev
    | call c r => simp at h
  · intro h
    exact ⟨_, h, rfl⟩

theorem printed_append (t u : List Event) : printed (t ++ u) = printed t ++ printed u := by
  simp [printed, List.filterMap_append]

theorem startsWith_append (p x : String) : startsWith p (p ++ x) := by
  unfold startsWith
  rw [String.data_append]
  exact List.prefix_append _ _

theorem not_startsWith_progress {l : String}
    (h : l = "Created vectors collection" ∨ l = "Created vector search index") :
    ¬ startsWith errorPrefix l := by
  rcases h with h | h <;> subst h <;> decide

theorem closingLine_some (e : JsError) :
    closingLine (some e) = errorPrefix ++ e.toString := rfl

/-- The trace of a run: the opening line, the `try` block, the closing
line. -/
theorem run_trace (F : Faults) (env : Env) (s : Server) (db0 : String) :
    (run F env s db0).2.trace =
      .print "Starting MongoDB initialization..." ::
        ((tryStages F env s).2.2 ++ [.print (closingLine (tryStages F env s).1)]) :=
  (run_eq F env s db0).2.2

theorem run_result (F : Faults) (env : Env) (s : Server) (db0 : String) :
    (run F env s db0).1 = toResult (tryStages F env s).1 :=
  (run_eq F env s db0).1

theorem run_server (F : Faults) (env : Env) (s : Server) (db0 : String) :
    (run F env s db0).2.server = (tryStages F env s).2.1 :=
  (run_eq F env s db0).2.1

/-- A command that raised in a run is the one the `try` block stopped at. -/
theorem raised_in_run {F : Faults} {env : Env} {s : Server} {db0 : String} {c : Cmd}
    {e : JsError} (h : Event.call c (.error e) ∈ (run F env s db0).2.trace) :
    ∃ pre, (tryStages F env s).1 = some e ∧
      (tryStages F env s).2.2 = pre ++ [.call c (.error e)] ∧ okEvents pre := by
  rw [run_trace] at h
  have h : Event.call c (.error e) ∈ (tryStages F env s).2.2 := by
    simpa using h
  rcases tryStages_shape F env s with ⟨_, hok⟩ | ⟨e0, c0, pre, h1, ht, hok⟩
  · exact absurd h (hok c e)
  · rw [ht] at h
    rcases List.mem_append.mp h with h | h
    · exact absurd h (hok c e)
    · simp only [List.mem_singleton, Event.call.injEq, Except.error.injEq] at h
      obtain ⟨hc, he⟩ := h
      subst hc; subst he
      exact ⟨pre, h1, ht, hok⟩

theorem printed_pre_filter {pre : List Event} (h : ProgressLines pre) :
    (printed pre).filter (fun l => decide (startsWith errorPrefix l)) = [] := by
  rw [List.filter_eq_nil_iff]
  intro l hl
  simpa using not_startsWith_progress (h l (mem_printed.mp hl))

/-- C7, as amended: when a step of the `try` block (`sleep`, `getSiblingDB`,
`getUser`, `createUser`, `getCollectionNames`, `createCollection`,
`createIndex`) raises an error `e`, that step is the
last command of the run (no later step is executed), the line
`Error during initialization: ` followed by the string form of `e` is
printed right after it and is the only line of that form, the script raises
`e`, and the completion line is not printed.  Conversely, when no step
raises, no such line is printed and the script raises nothing. -/
theorem error_logged_and_rethrown (F : Faults) (env : Env) (s : Server) (db0 : String) :
    (∀ c e, Event.call c (.error e) ∈ (run F env s db0).2.trace →
      (∃ pre, (run F env s db0).2.trace =
        pre ++ [.call c (.error e), .print ("Error during initialization: " ++ e.toString)]) ∧
      (printed (run F env s db0).2.trace).filter
          (fun l => decide (startsWith "Error during initialization: " l)) =
        ["Error during initialization: " ++ e.toString] ∧
      (run F env s db0).1 = .error e ∧
      "MongoDB initialization complete" ∉ printed (run F env s db0).2.trace) ∧
    ((∀ c e, Event.call c (.error e) ∉ (run F env s db0).2.trace) →
      (run F env s db0).1 = .ok () ∧
      ∀ l ∈ printed (run F env s db0).2.trace,
        ¬ startsWith "Error during initialization: " l) := by
  have hlines := tryStages_lines F env s
  constructor
  · intro c e h
    obtain ⟨pre, h1, ht, _⟩ := raised_in_run h
    rw [ht] at hlines
    have hpre : ProgressLines pre := fun l hl => hlines l (List.mem_append_left _ hl)
    rw [run_trace, run_result, h1, ht]
    refine ⟨⟨.print "Starting MongoDB initialization..." :: pre, by simp [closingLine]⟩, ?_,
      rfl, ?_⟩
    · have hstart : ¬ startsWith errorPrefix "Starting MongoDB initialization..." := by decide
      have herr : startsWith errorPrefix (errorPrefix ++ e.toString) := startsWith_append _ _
      show List.filter (fun l => decide (startsWith errorPrefix l)) _ = [errorPrefix ++ e.toString]
      rw [show (Event.print "Starting MongoDB initialization..." ::
          (pre ++ [.call c (.error e)] ++ [.print (closingLine (some e))])) =
        [Event.print "Starting MongoDB initialization..."] ++ pre ++ [.call c (.error e)] ++
          [.print (closingLine (some e))] by simp]
      simp only [printed_append, List.filter_append, printed_pre_filter hpre]
      simp [printed, closingLine_some, hstart, herr]
    · intro hmem
      rcases mem_printed.mp hmem with hm
      simp only [List.mem_cons, List.mem_append, List.mem_singleton, Event.print.injEq,
        List.not_mem_nil, or_false] at hm
      rcases hm with hm | (hm | hm) | hm
      · revert hm; decide
      · rcases hpre _ hm with h' | h' <;> revert h' <;> decide
      · cases hm
      · have : startsWith errorPrefix "MongoDB initialization complete" := by
          rw [hm, closingLine_some]; exact startsWith_append _ _
        revert this; decide
  · intro hok
    rcases tryStages_shape F env s with ⟨h1, _⟩ | ⟨e0, c0, pre, h1, ht, _⟩
    · rw [run_trace, run_result, h1]
      refine ⟨rfl, ?_⟩
      intro l hl
      rcases mem_printed.mp hl with hm
      simp only [List.mem_cons, List.mem_append, List.mem_singleton, Event.print.injEq,
        List.not_mem_nil, or_false, closingLine] at hm
      rcases hm with hm | hm | hm
      · subst hm; decide
      · exact not_startsWith_progress (hlines _ hm)
      · subst hm; decide
    · exfalso
      apply hok c0 e0
      rw [run_trace, ht]
      simp

/-! ## The commands of each stage -/

theorem userStage_head (F : Faults) (env : Env) (s : Server) :
    ∃ r rest, (userStage F env s).2.2 = .call cmdSleep r :: rest ∧
      ∀ c o, Event.call c o ∈ rest →
        c = cmdUseAdmin ∨ c = cmdGetUser env ∨ c = cmdCreateUser env := by
  rcases userStage_cases F env s with ⟨e, _, h⟩ | ⟨e, _, _, h⟩ | ⟨doc, _, _, _, h⟩ |
    ⟨e, _, _, _, _, h⟩ | ⟨_, _, _, _, h⟩ <;> rw [h] <;>
    refine ⟨_, _, rfl, ?_⟩ <;> intro c o hc <;> simp at hc <;> aesop

theorem userStage_calls (F : Faults) (env : Env) (s : Server) (c : Cmd) (o : Outcome)
    (h : Event.call c o ∈ (userStage F env s).2.2) :
    c = cmdSleep ∨ c = cmdUseAdmin ∨ c = cmdGetUser env ∨ c = cmdCreateUser env := by
  obtain ⟨r, rest, ht, hrest⟩ := userStage_head F env s
  rw [ht] at h
  rcases List.mem_cons.mp h with h | h
  · simp only [Event.call.injEq] at h; exact Or.inl h.1
  · exact Or.inr (hrest c o h)

theorem collStage_calls (F : Faults) (env : Env) (s : Server) (c : Cmd) (o : Outcome)
    (h : Event.call c o ∈ (collStage F env s).2.2) :
    c = cmdUseTarget env ∨ c = cmdGetCollectionNames env ∨ c = cmdCreateCollection env := by
  rcases collStage_cases F env s with ⟨_, hs⟩ | ⟨e, _, _, hs⟩ | ⟨_, _, _, hs⟩ |
    ⟨e, _, _, _, _, hs⟩ | ⟨_, _, _, _, hs⟩ <;> rw [hs] at h <;> simp at h <;> aesop

theorem indexStage_calls (F : Faults) (env : Env) (s : Server) (c : Cmd) (o : Outcome)
    (h : Event.call c o ∈ (indexStage F env s).2.2) : c = cmdCreateIndex env := by
  rcases indexStage_cases F env s with ⟨e, _, hs⟩ | ⟨e, _, _, hs⟩ | ⟨v, t, _, _, hs⟩ <;>
    rw [hs] at h <;> simp at h <;> aesop

theorem indexStage_issued (F : Faults) (env : Env) (s : Server) :
    issued (indexStage F env s).2.2 = [cmdCreateIndex env] := by
  rcases indexStage_cases F env s with ⟨e, _, hs⟩ | ⟨e, _, _, hs⟩ | ⟨v, t, _, _, hs⟩ <;>
    rw [hs] <;> rfl

/-- A stage that raised `e` has the command that raised `e` in its trace. -/
theorem shape_raised {a : Stage} (h : Shape a) {e : JsError} (he : a.1 = some e) :
    ∃ c, Event.call c (.error e) ∈ a.2.2 := by
  rcases h with ⟨h1, _⟩ | ⟨e0, c0, pre, h1, ht, _⟩
  · rw [h1] at he; cases he
  · rw [h1] at he
    cases he
    exact ⟨c0, by rw [ht]; simp⟩

/-- A stage that went through has no command that raised. -/
theorem shape_ok {a : Stage} (h : Shape a) (he : a.1 = none) : okEvents a.2.2 := by
  rcases h with ⟨_, hok⟩ | ⟨e0, c0, pre, h1, _, _⟩
  · exact hok
  · rw [h1] at he; cases he

theorem mem_issued {c : Cmd} {t : List Event} : c ∈ issued t ↔ ∃ o, Event.call c o ∈ t := by
  unfold issued
  rw [List.mem_filterMap]
  constructor
  · rintro ⟨ev, hev, h⟩
    cases ev with
    | print l => simp at h
    | call c' r => simp only [Option.some.injEq] at h; subst h; exact ⟨r, hev⟩
  · rintro ⟨o, h⟩
    exact ⟨_, h, rfl⟩

theorem issued_append (t u : List Event) : issued (t ++ u) = issued t ++ issued u := by
  simp [issued, List.filterMap_append]

theorem filter_issued_nil {t : List Event} {p : Cmd → Bool}
    (h : ∀ c o, Event.call c o ∈ t → p c = false) : (issued t).filter p = [] := by
  rw [List.filter_eq_nil_iff]
  intro c hc
  obtain ⟨o, ho⟩ := mem_issued.mp hc
  simp [h c o ho]

/-- The trace of the `try` block starts with the `sleep`; no later command
is a `sleep`. -/
theorem tryStages_head (F : Faults) (env : Env) (s : Server) :
    ∃ r rest, (tryStages F env s).2.2 = .call cmdSleep r :: rest ∧
      ∀ c o, Event.call c o ∈ rest → c.isSleep = false := by
  obtain ⟨r, rest, ht, hrest⟩ := userStage_head F env s
  have hu : ∀ c o, Event.call c o ∈ rest → c.isSleep = false := by
    intro c o h
    rcases hrest c o h with h | h | h <;> subst h <;> rfl
  have hc : ∀ s1 c o, Event.call c o ∈ (collStage F env s1).2.2 → c.isSleep = false := by
    intro s1 c o h
    rcases collStage_calls F env s1 c o h with h | h | h <;> subst h <;> rfl
  have hi : ∀ s1 c o, Event.call c o ∈ (indexStage F env s1).2.2 → c.isSleep = false := by
    intro s1 c o h
    rw [indexStage_calls F env s1 c o h]; rfl
  rcases tryStages_cases F env s with ⟨e, _, hs⟩ | ⟨_, e, _, hs⟩ | ⟨_, _, hs⟩
  · rw [hs, ht]; exact ⟨r, rest, rfl, hu⟩
  · rw [hs, ht]
    refine ⟨r, rest ++ (collStage F env (afterUser F env s)).2.2, rfl, ?_⟩
    intro c o h
    rcases List.mem_append.mp h with h | h
    · exact hu c o h
    · exact hc _ c o h
  · rw [hs, ht]
    refine ⟨r, rest ++ ((collStage F env (afterUser F env s)).2.2 ++
      (indexStage F env (afterColl F env s)).2.2), rfl, ?_⟩
    intro c o h
    rcases List.mem_append.mp h with h | h
    · exact hu c o h
    · rcases List.mem_append.mp h with h | h
      · exact hc _ c o h
      · exact hi _ c o h

/-- C9: the first action inside the `try` block is `sleep(5000)`; before it
the run has only printed its opening line, so no database command and no
`getSiblingDB` precedes it; and whatever fails later, `sleep` is invoked
exactly once in the run. -/
theorem sleep_first_and_once (F : Faults) (env : Env) (s : Server) (db0 : String) :
    (∃ r rest, (run F env s db0).2.trace =
        .print "Starting MongoDB initialization..." :: .call (.sleep 5000) r :: rest ∧
        ∀ c o, Event.call c o ∈ rest → c.isSleep = false) ∧
    (issued (run F env s db0).2.trace).filter Cmd.isSleep = [.sleep 5000] := by
  obtain ⟨r, rest, ht, hrest⟩ := tryStages_head F env s
  have hrest2 : ∀ c o, Event.call c o ∈
      rest ++ [Event.print (closingLine (tryStages F env s).1)] → c.isSleep = false := by
    intro c o h
    rcases List.mem_append.mp h with h | h
    · exact hrest c o h
    · simp at h
  rw [run_trace, ht]
  refine ⟨⟨r, rest ++ [.print (closingLine (tryStages F env s).1)],
    by rw [List.cons_append]; rfl, hrest2⟩, ?_⟩
  rw [show (Event.print "Starting MongoDB initialization..." ::
      (Event.call cmdSleep r :: rest ++ [Event.print (closingLine (tryStages F env s).1)])) =
    [Event.print "Starting MongoDB initialization...", Event.call cmdSleep r] ++
      (rest ++ [Event.print (closingLine (tryStages F env s).1)]) from rfl,
    issued_append, List.filter_append, filter_issued_nil hrest2]
  rfl

theorem run_mem_of_try {F : Faults} {env : Env} {s : Server} {db0 : String} {ev : Event}
    (h : ev ∈ (tryStages F env s).2.2) : ev ∈ (run F env s db0).2.trace := by
  rw [run_trace]
  exact List.mem_cons_of_mem _ (List.mem_append_left _ h)

theorem issued_run (F : Faults) (env : Env) (s : Server) (db0 : String) :
    issued (run F env s db0).2.trace = issued (tryStages F env s).2.2 := by
  rw [run_trace]
  simp [issued, List.filterMap_append]

/-- C8: when no step before the index creation fails, the run issues
exactly one `createIndex` command: on `vectors` of the target database,
with the key and the options of the script, whatever the initial server
holds (user, collection or index present or not). -/
theorem create_index_issued_once (F : Faults) (env : Env) (s : Server) (db0 : String)
    (h : ∀ c e, Event.call c (.error e) ∈ (run F env s db0).2.trace →
      c.isCreateIndex = true) :
    (issued (run F env s db0).2.trace).filter Cmd.isCreateIndex =
      [.createIndex env.MONGODB_DATABASE "vectors"
        [("embedding", [("type", .str "vectorSearch"), ("numDimensions", .num 1536),
          ("similarity", .str "cosine")])]
        "vector_index"] := by
  have hu : ∀ c o, Event.call c o ∈ (userStage F env s).2.2 → c.isCreateIndex = false := by
    intro c o hc
    rcases userStage_calls F env s c o hc with h | h | h | h <;> subst h <;> rfl
  have hc : ∀ s1 c o, Event.call c o ∈ (collStage F env s1).2.2 →
      c.isCreateIndex = false := by
    intro s1 c o hc
    rcases collStage_calls F env s1 c o hc with h | h | h <;> subst h <;> rfl
  rw [issued_run]
  rcases tryStages_cases F env s with ⟨e, he, hs⟩ | ⟨_, e, he, hs⟩ | ⟨_, _, hs⟩
  · exfalso
    obtain ⟨c, hmem⟩ := shape_raised (userStage_shape F env s) he
    have h1 := h c e (run_mem_of_try (by rw [hs]; exact hmem))
    rw [hu c _ hmem] at h1
    cases h1
  · exfalso
    obtain ⟨c, hmem⟩ := shape_raised (collStage_shape F env (afterUser F env s)) he
    have h1 := h c e (run_mem_of_try (by rw [hs]; exact List.mem_append_right _ hmem))
    rw [hc _ c _ hmem] at h1
    cases h1
  · rw [hs]
    simp only [issued_append, List.filter_append, filter_issued_nil hu,
      filter_issued_nil (hc _), indexStage_issued, List.nil_append]
    rfl

/-- C6: when the `createUser` command of a run fails with an error `e` (which
happens only with the configured user absent), the script raises `e`; the
run has issued `sleep`, `getSiblingDB('admin')`, `getUser` and `createUser`
and nothing else, so no `getCollectionNames`, `createCollection` or
`createIndex`; and the server (users, collections and indexes of every
database) is as before the run. -/
theorem create_user_failure_aborts (F : Faults) (env : Env) (s : Server) (db0 : String)
    (e : JsError)
    (hfail : Event.call (cmdCreateUser env) (.error e) ∈ (run F env s db0).2.trace) :
    env.MONGODB_USER ∉ (s "admin").users ∧
    (run F env s db0).1 = .error e ∧
    issued (run F env s db0).2.trace =
      [cmdSleep, cmdUseAdmin, cmdGetUser env, cmdCreateUser env] ∧
    (run F env s db0).2.server = s := by
  obtain ⟨pre, h1, ht, _⟩ := raised_in_run hfail
  have hin : Event.call (cmdCreateUser env) (.error e) ∈ (tryStages F env s).2.2 := by
    rw [ht]; simp
  rw [run_result, issued_run, run_server, h1]
  have hnc : ∀ s1, Event.call (cmdCreateUser env) (.error e) ∉ (collStage F env s1).2.2 := by
    intro s1 hm
    rcases collStage_calls F env s1 _ _ hm with h | h | h <;>
      simp [cmdCreateUser, cmdUseTarget, cmdGetCollectionNames, cmdCreateCollection] at h
  have hni : ∀ s1, Event.call (cmdCreateUser env) (.error e) ∉ (indexStage F env s1).2.2 := by
    intro s1 hm
    have h := indexStage_calls F env s1 _ _ hm
    simp [cmdCreateUser, cmdCreateIndex] at h
  rcases tryStages_cases F env s with ⟨e', he, hs⟩ | ⟨hu, e', he, hs⟩ | ⟨hu, _, hs⟩
  · rw [hs] at hin ⊢
    rcases userStage_cases F env s with ⟨e, _, h⟩ | ⟨e, _, _, h⟩ | ⟨doc, _, _, _, h⟩ |
      ⟨e, _, _, habs, _, h⟩ | ⟨_, _, _, _, h⟩ <;> rw [h] at hin ⊢ <;>
      simp [cmdCreateUser, cmdSleep, cmdGetUser, cmdUseAdmin] at hin
    obtain rfl := hin
    exact ⟨AList.lookup_eq_none.mp habs, rfl, rfl, rfl⟩
  · exfalso
    rw [hs] at hin
    rcases List.mem_append.mp hin with hm | hm
    · exact shape_ok (userStage_shape F env s) hu _ _ hm
    · exact hnc _ hm
  · exfalso
    rw [hs] at hin
    rcases List.mem_append.mp hin with hm | hm
    · exact shape_ok (userStage_shape F env s) hu _ _ hm
    · rcases List.mem_append.mp hm with hm | hm
      · exact hnc _ hm
      · exact hni _ hm

theorem run_empty_ok (env : Env) (db0 : String)
    (hv : validDatabaseName env.MONGODB_DATABASE = true) :
    (run noFaults env Server.empty db0).1 = .ok () := by
  rw [run_result, tryStages_empty env hv]; rfl

theorem valid_sample : validDatabaseName sampleEnv.MONGODB_DATABASE = true := by decide

/-- C5: after a run that completes without an error, the collection
`vectors` of the target database has an index named `vector_index` whose key
is the field `embedding` with `numDimensions` 1536 and `similarity`
`cosine`. -/
theorem index_present_after_success (F : Faults) (env : Env) (s : Server) (db0 : String)
    (h : (run F env s db0).1 = .ok ()) :
    ∃ c spec,
      ((run F env s db0).2.server env.MONGODB_DATABASE).collections.lookup "vectors" = some c ∧
      c.indexes.lookup "vector_index" = some [("embedding", spec)] ∧
      spec.lookup "numDimensions" = some (.num 1536) ∧
      spec.lookup "similarity" = some (.str "cosine") := by
  have hok : (tryStages F env s).1 = none := by
    rw [run_result] at h
    cases hT : (tryStages F env s).1 with
    | none => rfl
    | some e => rw [hT] at h; cases h
  have hi := (tryStages_ok hok).2.2
  rw [run_server]
  unfold Server.index at hi
  cases hl : ((tryStages F env s).2.1 env.MONGODB_DATABASE).collections.lookup "vectors" with
  | none => rw [hl] at hi; simp at hi
  | some c =>
    rw [hl] at hi
    simp only [Option.some_bind] at hi
    exact ⟨c, _, rfl, hi, by decide, by decide⟩

theorem index_present_after_success_witness :
    (run noFaults sampleEnv Server.empty "test").1 = .ok () ∧
    ∃ c spec,
      ((run noFaults sampleEnv Server.empty "test").2.server
        sampleEnv.MONGODB_DATABASE).collections.lookup "vectors" = some c ∧
      c.indexes.lookup "vector_index" = some [("embedding", spec)] ∧
      spec.lookup "numDimensions" = some (.num 1536) ∧
      spec.lookup "similarity" = some (.str "cosine") :=
  ⟨run_empty_ok sampleEnv "test" valid_sample,
    index_present_after_success noFaults sampleEnv Server.empty "test"
      (run_empty_ok sampleEnv "test" valid_sample)⟩

/-- C10: a run, successful or failing, only adds.  Every user of `admin`
keeps its document; every collection of the target database stays; users of
`admin` other than the configured one, collections of the target database
other than `vectors`, and indexes of `vectors` other than `vector_index` are
as before; an existing `vector_index` keeps its key; and the users of every
database other than `admin` and the collections of every database other
than the target are unchanged. -/
theorem run_only_adds (F : Faults) (env : Env) (s : Server) (db0 : String) :
    (∀ name doc, (s "admin").users.lookup name = some doc →
      ((run F env s db0).2.server "admin").users.lookup name = some doc) ∧
    (∀ name, name ∈ (s env.MONGODB_DATABASE).collections →
      name ∈ ((run F env s db0).2.server env.MONGODB_DATABASE).collections) ∧
    (∀ name, name ≠ env.MONGODB_USER →
      ((run F env s db0).2.server "admin").users.lookup name =
        (s "admin").users.lookup name) ∧
    (∀ name, name ≠ "vectors" →
      ((run F env s db0).2.server env.MONGODB_DATABASE).collections.lookup name =
        (s env.MONGODB_DATABASE).collections.lookup name) ∧
    (∀ name, name ≠ "vector_index" →
      (run F env s db0).2.server.index env.MONGODB_DATABASE "vectors" name =
        s.index env.MONGODB_DATABASE "vectors" name) ∧
    (∀ key, s.index env.MONGODB_DATABASE "vectors" "vector_index" = some key →
      (run F env s db0).2.server.index env.MONGODB_DATABASE "vectors" "vector_index" =
        some key) ∧
    (∀ db, db ≠ "admin" → ((run F env s db0).2.server db).users = (s db).users) ∧
    (∀ db, db ≠ env.MONGODB_DATABASE →
      ((run F env s db0).2.server db).collections = (s db).collections) := by
  have f := run_frame F env s db0
  refine ⟨?_, ?_, f.users_lookup, f.colls_lookup, f.index_lookup, f.index_kept, f.users_eq,
    f.colls_eq⟩
  · intro name doc h
    by_cases hn : name = env.MONGODB_USER
    · subst hn; exact f.user_kept doc h
    · rw [f.users_lookup name hn]; exact h
  · intro name h
    by_cases hn : name = "vectors"
    · subst hn; exact f.vectors_kept h
    · rw [← AList.lookup_isSome, f.colls_lookup name hn, AList.lookup_isSome]; exact h

/-! ## A server that is already provisioned -/

theorem provisionedServer_ok : FullyProvisioned sampleEnv provisionedServer := by
  refine ⟨?_, ?_, ?_, valid_sample⟩
  · simp [provisionedServer, sampleEnv, AList.mem_keys, AList.keys_singleton]
  · simp [provisionedServer, sampleEnv, AList.mem_keys, AList.keys_singleton]
  · simp [provisionedServer, sampleEnv, Server.index, lookup_singleton_self]

theorem userStage_present {F : Faults} {env : Env} {s : Server}
    (h : env.MONGODB_USER ∈ (s "admin").users) :
    (userStage F env s).2.1 = s ∧
    ((userStage F env s).1 = none ∨
      ∃ e, (userStage F env s).1 = some e ∧
        (F cmdSleep = some e ∨ F (cmdGetUser env) = some e)) := by
  rcases userStage_cases F env s with ⟨e, h1, hs⟩ | ⟨e, _, h2, hs⟩ | ⟨doc, _, _, _, hs⟩ |
    ⟨e, _, _, habs, _, hs⟩ | ⟨_, _, habs, _, hs⟩
  · rw [hs]; exact ⟨rfl, Or.inr ⟨e, rfl, Or.inl h1⟩⟩
  · rw [hs]; exact ⟨rfl, Or.inr ⟨e, rfl, Or.inr h2⟩⟩
  · rw [hs]; exact ⟨rfl, Or.inl rfl⟩
  · exact absurd h (AList.lookup_eq_none.mp habs)
  · exact absurd h (AList.lookup_eq_none.mp habs)

theorem collStage_present {F : Faults} {env : Env} {s : Server}
    (h : "vectors" ∈ (s env.MONGODB_DATABASE).collections)
    (hv : validDatabaseName env.MONGODB_DATABASE = true) :
    (collStage F env s).2.1 = s ∧
    ((collStage F env s).1 = none ∨
      ∃ e, (collStage F env s).1 = some e ∧ F (cmdGetCollectionNames env) = some e) := by
  rcases collStage_cases F env s with ⟨hn, _⟩ | ⟨e, _, h1, hs⟩ | ⟨_, _, _, hs⟩ |
    ⟨e, _, _, habs, _, hs⟩ | ⟨_, _, habs, _, hs⟩
  · rw [hv] at hn; cases hn
  · rw [hs]; exact ⟨rfl, Or.inr ⟨e, rfl, h1⟩⟩
  · rw [hs]; exact ⟨rfl, Or.inl rfl⟩
  · exact absurd h habs
  · exact absurd h habs

theorem indexStage_present {F : Faults} {env : Env} {s : Server}
    (h : s.index env.MONGODB_DATABASE "vectors" "vector_index" = some vectorKey) :
    (indexStage F env s).2.1 = s ∧
    ((indexStage F env s).1 = none ∨
      ∃ e, (indexStage F env s).1 = some e ∧ F (cmdCreateIndex env) = some e) := by
  have hsame : createIndexOn s env.MONGODB_DATABASE "vectors" vectorKey "vector_index" =
      .ok (.ok, s) := by
    apply createIndexOn_same
    unfold Server.index at h
    unfold collectionOrNew
    cases hl : (s env.MONGODB_DATABASE).collections.lookup "vectors" with
    | none => rw [hl] at h; simp at h
    | some c => rw [hl] at h; simpa using h
  rcases indexStage_cases F env s with ⟨e, h1, hs⟩ | ⟨e, _, h2, hs⟩ | ⟨v, t, _, h2, hs⟩
  · rw [hs]; exact ⟨rfl, Or.inr ⟨e, rfl, h1⟩⟩
  · rw [hsame] at h2; cases h2
  · rw [hsame] at h2
    cases h2
    rw [hs]; exact ⟨rfl, Or.inl rfl⟩

/-- On a provisioned server the `try` block changes nothing, and it fails
only when one of its four commands is rejected from outside. -/
theorem tryStages_provisioned {F : Faults} {env : Env} {s : Server}
    (h : FullyProvisioned env s) :
    (tryStages F env s).2.1 = s ∧
    ((tryStages F env s).1 = none ∨
      ∃ e, (tryStages F env s).1 = some e ∧
        (F cmdSleep = some e ∨ F (cmdGetUser env) = some e ∨
          F (cmdGetCollectionNames env) = some e ∨ F (cmdCreateIndex env) = some e)) := by
  obtain ⟨hu, hc, hi, hv⟩ := h
  obtain ⟨us, ue⟩ := userStage_present (F := F) hu
  have hau : afterUser F env s = s := us
  have hac : afterColl F env s = s := by
    unfold afterColl; rw [hau]; exact (collStage_present hc hv).1
  rcases tryStages_cases F env s with ⟨e, he, hs⟩ | ⟨_, e, he, hs⟩ | ⟨_, _, hs⟩
  · rw [hs]
    refine ⟨us, Or.inr ⟨e, he, ?_⟩⟩
    rcases ue with h0 | ⟨e', h1, h2⟩
    · rw [h0] at he; cases he
    · rw [h1] at he; cases he
      rcases h2 with h2 | h2
      · exact Or.inl h2
      · exact Or.inr (Or.inl h2)
  · rw [hs]
    refine ⟨hac, Or.inr ⟨e, rfl, ?_⟩⟩
    rw [hau] at he
    rcases (collStage_present (F := F) hc hv).2 with h0 | ⟨e', h1, h2⟩
    · rw [h0] at he; cases he
    · rw [h1] at he; cases he
      exact Or.inr (Or.inr (Or.inl h2))
  · rw [hs, hac]
    refine ⟨(indexStage_present hi).1, ?_⟩
    rcases (indexStage_present (F := F) hi).2 with h0 | ⟨e', h1, h2⟩
    · exact Or.inl h0
    · exact Or.inr ⟨e', h1, Or.inr (Or.inr (Or.inr h2))⟩

/-- C2, as amended: on a server that is already fully provisioned, every run
of the script leaves the server equal to what it was (no second user,
collection or index is added), and the run raises no error provided none of
the four commands it issues (`sleep`, `getUser`, `getCollectionNames`,
`createIndex`) is rejected for a reason outside the database state. -/
theorem rerun_on_provisioned (F : Faults) (env : Env) (s : Server) (db0 : String)
    (h : FullyProvisioned env s) :
    (run F env s db0).2.server = s ∧
    (F cmdSleep = none → F (cmdGetUser env) = none →
      F (cmdGetCollectionNames env) = none → F (cmdCreateIndex env) = none →
      (run F env s db0).1 = .ok ()) := by
  obtain ⟨hs, he⟩ := tryStages_provisioned (F := F) h
  rw [run_server, run_result]
  refine ⟨hs, ?_⟩
  intro h1 h2 h3 h4
  rcases he with h0 | ⟨e, _, hf⟩
  · rw [h0]; rfl
  · rw [h1, h2, h3, h4] at hf
    simp at hf

theorem rerun_on_provisioned_witness :
    FullyProvisioned sampleEnv provisionedServer ∧
    (run noFaults sampleEnv provisionedServer "test").2.server = provisionedServer ∧
    (run noFaults sampleEnv provisionedServer "test").1 = .ok () :=
  ⟨provisionedServer_ok,
    (rerun_on_provisioned noFaults sampleEnv provisionedServer "test" provisionedServer_ok).1,
    (rerun_on_provisioned noFaults sampleEnv provisionedServer "test" provisionedServer_ok).2
      rfl rfl rfl rfl⟩

/-- A run in which `getUser` is rejected from outside raises that error and
leaves the server alone. -/
theorem run_getUser_rejected {F : Faults} {env : Env} {e : JsError} (s : Server)
    (db0 : String) (h1 : F cmdSleep = none) (h2 : F (cmdGetUser env) = some e) :
    (run F env s db0).1 = .error e ∧ (run F env s db0).2.server = s := by
  have hu : userStage F env s = (some e, s, [.call cmdSleep (.ok .undefined),
      .call cmdUseAdmin (.ok (.database "admin")), .call (cmdGetUser env) (.error e)]) := by
    simp [userStage, h1, h2]
  have ht : tryStages F env s = userStage F env s := by
    unfold tryStages
    exact andThen_of_some (e := e) (by rw [hu])
  rw [run_result, run_server, ht, hu]
  exact ⟨rfl, rfl⟩

theorem failing_getUser_sleep (env : Env) : failing (cmdGetUser env) cmdSleep = none := by
  simp [failing, cmdSleep, cmdGetUser]

theorem failing_self (c : Cmd) : failing c c = some sampleError := by
  simp [failing]

/-- C2 as stated fails: on a provisioned server, a run in which the server
rejects `getUser` (for instance for lack of authentication) raises an
error. -/
theorem rerun_on_provisioned_counterexample :
    ¬ (FullyProvisioned sampleEnv provisionedServer →
        (run (failing (cmdGetUser sampleEnv)) sampleEnv provisionedServer "test").1 = .ok () ∧
        (run (failing (cmdGetUser sampleEnv)) sampleEnv provisionedServer "test").2.server =
          provisionedServer) := by
  intro h
  have h1 := (h provisionedServer_ok).1
  rw [(run_getUser_rejected provisionedServer "test" (failing_getUser_sleep sampleEnv)
    (failing_self _)).1] at h1
  cases h1

/-! ## Where the actions of the `try` block come from -/

theorem mem_tryStages (F : Faults) (env : Env) (s : Server) (ev : Event) :
    ev ∈ (tryStages F env s).2.2 ↔
      ev ∈ (userStage F env s).2.2 ∨
      ((userStage F env s).1 = none ∧
        (ev ∈ (collStage F env (afterUser F env s)).2.2 ∨
          ((collStage F env (afterUser F env s)).1 = none ∧
            ev ∈ (indexStage F env (afterColl F env s)).2.2))) := by
  rcases tryStages_cases F env s with ⟨e, he, hs⟩ | ⟨hu, e, he, hs⟩ | ⟨hu, hc, hs⟩
  · rw [hs]; simp [he]
  · rw [hs]; simp [hu, he]
  · rw [hs]; simp [hu, hc]

theorem mem_run_call (F : Faults) (env : Env) (s : Server) (db0 : String) (c : Cmd)
    (o : Outcome) :
    Event.call c o ∈ (run F env s db0).2.trace ↔ Event.call c o ∈ (tryStages F env s).2.2 := by
  rw [run_trace]; simp

/-- The user stage does not touch collections. -/
theorem userStage_collections (F : Faults) (env : Env) (s : Server) (db : String) :
    ((userStage F env s).2.1 db).collections = (s db).collections := by
  rcases userStage_cases F env s with ⟨e, _, h⟩ | ⟨e, _, _, h⟩ | ⟨doc, _, _, _, h⟩ |
    ⟨e, _, _, _, _, h⟩ | ⟨_, _, _, _, h⟩ <;> simp [h]

/-- A `createUser` in the trace of the `try` block is the one for the
configured user, comes after a `getUser` that returned `null`, and the user
is absent from the server the run started on. -/
theorem createUser_in_try {F : Faults} {env : Env} {s : Server} {c : Cmd} {o : Outcome}
    (h : Event.call c o ∈ (tryStages F env s).2.2) (hc : c.isCreateUser = true) :
    c = cmdCreateUser env ∧ env.MONGODB_USER ∉ (s "admin").users ∧
      Event.call (cmdGetUser env) (.ok .null) ∈ (tryStages F env s).2.2 := by
  rcases (mem_tryStages F env s _).mp h with h | ⟨_, h | ⟨_, h⟩⟩
  · have hsub : ∀ ev, ev ∈ (userStage F env s).2.2 → ev ∈ (tryStages F env s).2.2 :=
      fun ev hev => (mem_tryStages F env s ev).mpr (Or.inl hev)
    have hcu : c = cmdCreateUser env := by
      rcases userStage_calls F env s c o h with h | h | h | h
      · rw [h] at hc; cases hc
      · rw [h] at hc; cases hc
      · rw [h] at hc; cases hc
      · exact h
    subst hcu
    rcases userStage_cases F env s with ⟨e, _, hs⟩ | ⟨e, _, _, hs⟩ | ⟨doc, _, _, _, hs⟩ |
      ⟨e, _, _, habs, _, hs⟩ | ⟨_, _, habs, _, hs⟩
    · rw [hs] at h; simp [cmdCreateUser, cmdSleep] at h
    · rw [hs] at h; simp [cmdCreateUser, cmdSleep, cmdUseAdmin, cmdGetUser] at h
    · rw [hs] at h; simp [cmdCreateUser, cmdSleep, cmdUseAdmin, cmdGetUser] at h
    · exact ⟨rfl, AList.lookup_eq_none.mp habs, hsub _ (by rw [hs]; simp)⟩
    · exact ⟨rfl, AList.lookup_eq_none.mp habs, hsub _ (by rw [hs]; simp)⟩
  · rcases collStage_calls F env _ c o h with h | h | h <;> rw [h] at hc <;> cases hc
  · rw [indexStage_calls F env _ c o h] at hc; cases hc

/-- After a `getUser` that returned `null` the run issues `createUser`. -/
theorem createUser_after_null {F : Faults} {env : Env} {s : Server}
    (h : Event.call (cmdGetUser env) (.ok .null) ∈ (tryStages F env s).2.2) :
    ∃ o, Event.call (cmdCreateUser env) o ∈ (tryStages F env s).2.2 := by
  have hsub : ∀ ev, ev ∈ (userStage F env s).2.2 → ev ∈ (tryStages F env s).2.2 :=
    fun ev hev => (mem_tryStages F env s ev).mpr (Or.inl hev)
  rcases (mem_tryStages F env s _).mp h with h | ⟨_, h | ⟨_, h⟩⟩
  · rcases userStage_cases F env s with ⟨e, _, hs⟩ | ⟨e, _, _, hs⟩ | ⟨doc, _, _, _, hs⟩ |
      ⟨e, _, _, habs, _, hs⟩ | ⟨_, _, habs, _, hs⟩
    · rw [hs] at h; simp [cmdSleep, cmdGetUser, cmdUseAdmin] at h
    · rw [hs] at h; simp [cmdSleep, cmdGetUser, cmdUseAdmin] at h
    · rw [hs] at h; simp [cmdSleep, cmdGetUser, cmdUseAdmin] at h
    · exact ⟨.error e, hsub _ (by rw [hs]; simp)⟩
    · exact ⟨.ok .ok, hsub _ (by rw [hs]; simp)⟩
  · rcases collStage_calls F env _ _ _ h with h | h | h <;>
      simp [cmdGetUser, cmdUseTarget, cmdGetCollectionNames, cmdCreateCollection] at h
  · have := indexStage_calls F env _ _ _ h
    simp [cmdGetUser, cmdCreateIndex] at this

/-! ## Two runs in succession -/

theorem run_guardedCreateUser (F : Faults) (env : Env) (s : Server) (db0 : String) :
    GuardedCreateUser env s (run F env s db0).2.trace := by
  refine ⟨?_, ?_, ?_⟩
  · intro db user pwd roles o h
    obtain ⟨hc, habs, _⟩ := createUser_in_try ((mem_run_call F env s db0 _ _).mp h) rfl
    simp only [cmdCreateUser, Cmd.createUser.injEq] at hc
    rw [hc.1, hc.2.1]
    exact habs
  · rintro ⟨db, user, pwd, roles, o, h⟩
    rw [mem_run_call] at h ⊢
    exact (createUser_in_try h rfl).2.2
  · intro h
    rw [mem_run_call] at h
    obtain ⟨o, ho⟩ := createUser_after_null h
    exact ⟨_, _, _, _, o, (mem_run_call F env s db0 _ _).mpr ho⟩

theorem run_user_kept {F : Faults} {env : Env} {s : Server} {db0 : String}
    (h : env.MONGODB_USER ∈ (s "admin").users) :
    env.MONGODB_USER ∈ ((run F env s db0).2.server "admin").users := by
  obtain ⟨doc, hdoc⟩ := Option.isSome_iff_exists.mp (AList.lookup_isSome.mpr h)
  exact AList.lookup_isSome.mp (by rw [(run_frame F env s db0).user_kept doc hdoc]; rfl)

/-- In the user stage only `sleep`, `getUser` and `createUser` can raise. -/
theorem userStage_raised (F : Faults) (env : Env) (s : Server) (c : Cmd) (e : JsError)
    (h : Event.call c (.error e) ∈ (userStage F env s).2.2) :
    c = cmdSleep ∨ c = cmdGetUser env ∨ c = cmdCreateUser env := by
  rcases userStage_cases F env s with ⟨e, _, hs⟩ | ⟨e, _, _, hs⟩ | ⟨doc, _, _, _, hs⟩ |
    ⟨e, _, _, _, _, hs⟩ | ⟨_, _, _, _, hs⟩ <;> rw [hs] at h <;> simp at h <;> aesop

theorem userStage_of_passed {F : Faults} {env : Env} {s : Server} {db0 : String}
    (h : UserStepPassed (run F env s db0).2.trace) : (userStage F env s).1 = none := by
  cases hu : (userStage F env s).1 with
  | none => rfl
  | some e =>
    exfalso
    obtain ⟨c, hc⟩ := shape_raised (userStage_shape F env s) hu
    have h1 := h c e ((mem_run_call F env s db0 _ _).mpr
      ((mem_tryStages F env s _).mpr (Or.inl hc)))
    rcases userStage_raised F env s c _ hc with h2 | h2 | h2 <;> rw [h2] at h1 <;> cases h1

theorem run_user_present {F : Faults} {env : Env} {s : Server} {db0 : String}
    (h : UserStepPassed (run F env s db0).2.trace) :
    env.MONGODB_USER ∈ ((run F env s db0).2.server "admin").users := by
  have hu := userStage_of_passed h
  have hmem := userStage_ok hu
  obtain ⟨doc, hdoc⟩ := Option.isSome_iff_exists.mp (AList.lookup_isSome.mpr hmem)
  have fc := collStage_frame F env (afterUser F env s)
  have fi := indexStage_frame F env (afterColl F env s)
  have h2 : ((afterColl F env s) "admin").users.lookup env.MONGODB_USER = some doc :=
    fc.user_kept doc hdoc
  have h3 := fi.user_kept doc h2
  rw [run_server]
  rcases tryStages_cases F env s with ⟨e, he, _⟩ | ⟨_, e, _, hs⟩ | ⟨_, _, hs⟩
  · rw [hu] at he; cases he
  · rw [hs]
    exact AList.lookup_isSome.mp (by simp only [h2]; rfl)
  · rw [hs]
    exact AList.lookup_isSome.mp (by simp only [h3]; rfl)

theorem userCount_le_one (s : Server) (name : String) : userCount s name ≤ 1 :=
  List.nodup_iff_count_le_one.mp (s "admin").users.keys_nodup name

theorem userCount_of_mem {s : Server} {name : String} (h : name ∈ (s "admin").users) :
    userCount s name = 1 :=
  List.count_eq_one_of_mem (s "admin").users.keys_nodup (AList.mem_keys.mp h)

/-- C3, as amended: in each of two runs in succession, `createUser` is never
issued for a user name that already exists, and it is issued exactly when
`getUser` for the configured name returned nothing in that run.  After the
second run `admin` holds at most one user with the configured name, and
exactly one whenever the user existed before the first run or, in at least
one of the two runs, none of `sleep`, `getUser` and `createUser` raised an
error. -/
theorem user_created_at_most_once (F1 F2 : Faults) (env : Env) (s : Server) (db0 : String) :
    GuardedCreateUser env s (runTwice F1 F2 env s db0).1.2.trace ∧
    GuardedCreateUser env (runTwice F1 F2 env s db0).1.2.server
      (runTwice F1 F2 env s db0).2.2.trace ∧
    userCount (runTwice F1 F2 env s db0).2.2.server env.MONGODB_USER ≤ 1 ∧
    (env.MONGODB_USER ∈ (s "admin").users ∨
      UserStepPassed (runTwice F1 F2 env s db0).1.2.trace ∨
      UserStepPassed (runTwice F1 F2 env s db0).2.2.trace →
      userCount (runTwice F1 F2 env s db0).2.2.server env.MONGODB_USER = 1) := by
  refine ⟨run_guardedCreateUser F1 env s db0, run_guardedCreateUser F2 env _ db0,
    userCount_le_one _ _, ?_⟩
  intro h
  apply userCount_of_mem
  show env.MONGODB_USER ∈ ((run F2 env (run F1 env s db0).2.server db0).2.server "admin").users
  rcases h with h | h | h
  · exact run_user_kept (run_user_kept h)
  · exact run_user_kept (run_user_present h)
  · exact run_user_present h

/-- A `createCollection` in the trace of the `try` block is the one for
`vectors` in the target database, comes after a `getCollectionNames` that
returned the names of that database without `vectors`, and `vectors` is
absent from the server the run started on. -/
theorem createCollection_in_try {F : Faults} {env : Env} {s : Server} {c : Cmd} {o : Outcome}
    (h : Event.call c o ∈ (tryStages F env s).2.2) (hc : c.isCreateCollection = true) :
    c = cmdCreateCollection env ∧ "vectors" ∉ (s env.MONGODB_DATABASE).collections ∧
      ∃ ns, Event.call (cmdGetCollectionNames env) (.ok (.names ns)) ∈
        (tryStages F env s).2.2 ∧ "vectors" ∉ ns := by
  rcases (mem_tryStages F env s _).mp h with h | ⟨hu, h | ⟨_, h⟩⟩
  · rcases userStage_calls F env s c o h with h | h | h | h <;> rw [h] at hc <;> cases hc
  · have hsub : ∀ ev, ev ∈ (collStage F env (afterUser F env s)).2.2 →
        ev ∈ (tryStages F env s).2.2 :=
      fun ev hev => (mem_tryStages F env s ev).mpr (Or.inr ⟨hu, Or.inl hev⟩)
    have hcol : ((afterUser F env s) env.MONGODB_DATABASE).collections =
        (s env.MONGODB_DATABASE).collections := userStage_collections F env s _
    have hcc : c = cmdCreateCollection env := by
      rcases collStage_calls F env _ c o h with h | h | h
      · rw [h] at hc; cases hc
      · rw [h] at hc; cases hc
      · exact h
    subst hcc
    rcases collStage_cases F env (afterUser F env s) with ⟨_, hs⟩ | ⟨e, _, _, hs⟩ |
      ⟨_, _, _, hs⟩ | ⟨e, _, _, habs, _, hs⟩ | ⟨_, _, habs, _, hs⟩
    · rw [hs] at h; simp [cmdCreateCollection, cmdUseTarget] at h
    · rw [hs] at h
      simp [cmdCreateCollection, cmdUseTarget, cmdGetCollectionNames] at h
    · rw [hs] at h
      simp [cmdCreateCollection, cmdUseTarget, cmdGetCollectionNames] at h
    · rw [hcol] at habs
      refine ⟨rfl, habs, ((afterUser F env s) env.MONGODB_DATABASE).collections.keys,
        hsub _ (by rw [hs]; simp), ?_⟩
      rw [hcol]; exact fun hm => habs (AList.mem_keys.mpr hm)
    · rw [hcol] at habs
      refine ⟨rfl, habs, ((afterUser F env s) env.MONGODB_DATABASE).collections.keys,
        hsub _ (by rw [hs]; simp), ?_⟩
      rw [hcol]; exact fun hm => habs (AList.mem_keys.mpr hm)
  · rw [indexStage_calls F env _ c o h] at hc; cases hc

/-- After a `getCollectionNames` that returned names without `vectors` the
run issues `createCollection`. -/
theorem createCollection_after_names {F : Faults} {env : Env} {s : Server} {ns : List String}
    (h : Event.call (cmdGetCollectionNames env) (.ok (.names ns)) ∈ (tryStages F env s).2.2)
    (hns : "vectors" ∉ ns) :
    ∃ o, Event.call (cmdCreateCollection env) o ∈ (tryStages F env s).2.2 := by
  rcases (mem_tryStages F env s _).mp h with h | ⟨hu, h | ⟨_, h⟩⟩
  · rcases userStage_calls F env s _ _ h with h | h | h | h <;>
      simp [cmdGetCollectionNames, cmdSleep, cmdUseAdmin, cmdGetUser, cmdCreateUser] at h
  · have hsub : ∀ ev, ev ∈ (collStage F env (afterUser F env s)).2.2 →
        ev ∈ (tryStages F env s).2.2 :=
      fun ev hev => (mem_tryStages F env s ev).mpr (Or.inr ⟨hu, Or.inl hev⟩)
    rcases collStage_cases F env (afterUser F env s) with ⟨_, hs⟩ | ⟨e, _, _, hs⟩ |
      ⟨_, _, hmem, hs⟩ | ⟨e, _, _, habs, _, hs⟩ | ⟨_, _, habs, _, hs⟩
    · rw [hs] at h; simp [cmdGetCollectionNames, cmdUseTarget] at h
    · rw [hs] at h; simp [cmdGetCollectionNames, cmdUseTarget] at h
    · rw [hs] at h
      simp [cmdGetCollectionNames, cmdUseTarget] at h
      rw [h] at hns
      exact absurd (AList.mem_keys.mp hmem) hns
    · exact ⟨.error e, hsub _ (by rw [hs]; simp)⟩
    · exact ⟨.ok .ok, hsub _ (by rw [hs]; simp)⟩
  · have := indexStage_calls F env _ _ _ h
    simp [cmdGetCollectionNames, cmdCreateIndex] at this

theorem run_guardedCreateCollection (F : Faults) (env : Env) (s : Server) (db0 : String) :
    GuardedCreateCollection env s (run F env s db0).2.trace := by
  refine ⟨?_, ?_, ?_⟩
  · intro db name o h
    obtain ⟨hc, habs, _⟩ := createCollection_in_try ((mem_run_call F env s db0 _ _).mp h) rfl
    simp only [cmdCreateCollection, Cmd.createCollection.injEq] at hc
    rw [hc.1, hc.2]
    exact habs
  · rintro ⟨db, name, o, h⟩
    obtain ⟨_, _, ns, hns, hv⟩ :=
      createCollection_in_try ((mem_run_call F env s db0 _ _).mp h) rfl
    exact ⟨ns, (mem_run_call F env s db0 _ _).mpr hns, hv⟩
  · rintro ⟨ns, h, hv⟩
    rw [mem_run_call] at h
    obtain ⟨o, ho⟩ := createCollection_after_names h hv
    exact ⟨_, _, o, (mem_run_call F env s db0 _ _).mpr ho⟩

theorem run_collection_present {F : Faults} {env : Env} {s : Server} {db0 : String}
    (h : CollectionStepPassed (run F env s db0).2.trace) :
    "vectors" ∈ ((run F env s db0).2.server env.MONGODB_DATABASE).collections := by
  have hu : ∀ c o, Event.call c o ∈ (userStage F env s).2.2 → c.isCreateIndex = false := by
    intro c o hc
    rcases userStage_calls F env s c o hc with h | h | h | h <;> subst h <;> rfl
  have hc : ∀ s1 c o, Event.call c o ∈ (collStage F env s1).2.2 →
      c.isCreateIndex = false := by
    intro s1 c o hc
    rcases collStage_calls F env s1 c o hc with h | h | h <;> subst h <;> rfl
  have fi := indexStage_frame F env (afterColl F env s)
  rw [run_server]
  rcases tryStages_cases F env s with ⟨e, he, hs⟩ | ⟨_, e, he, hs⟩ | ⟨_, hok, hs⟩
  · exfalso
    obtain ⟨c, hmem⟩ := shape_raised (userStage_shape F env s) he
    have h1 := h c e (run_mem_of_try (by rw [hs]; exact hmem))
    rw [hu c _ hmem] at h1
    cases h1
  · exfalso
    obtain ⟨c, hmem⟩ := shape_raised (collStage_shape F env (afterUser F env s)) he
    have h1 := h c e (run_mem_of_try (by rw [hs]; exact List.mem_append_right _ hmem))
    rw [hc _ c _ hmem] at h1
    cases h1
  · rw [hs]
    exact fi.vectors_kept (collStage_ok hok).1

theorem vectorsCount_le_one (env : Env) (s : Server) : vectorsCount env s ≤ 1 :=
  List.nodup_iff_count_le_one.mp (s env.MONGODB_DATABASE).collections.keys_nodup "vectors"

theorem vectorsCount_of_mem {env : Env} {s : Server}
    (h : "vectors" ∈ (s env.MONGODB_DATABASE).collections) : vectorsCount env s = 1 :=
  List.count_eq_one_of_mem (s env.MONGODB_DATABASE).collections.keys_nodup
    (AList.mem_keys.mp h)

/-- C4, as amended: in each of two runs in succession, `createCollection` is
never issued for a collection name that the target database already has, and
it is issued exactly when `getCollectionNames` did not include `vectors` in
that run.  After the second run the collection list of the target database
contains `vectors` at most once, and exactly once whenever `vectors` existed
before the first run or, in at least one of the two runs, no step before the
index creation raised an error. -/
theorem collection_created_at_most_once (F1 F2 : Faults) (env : Env) (s : Server)
    (db0 : String) :
    GuardedCreateCollection env s (runTwice F1 F2 env s db0).1.2.trace ∧
    GuardedCreateCollection env (runTwice F1 F2 env s db0).1.2.server
      (runTwice F1 F2 env s db0).2.2.trace ∧
    vectorsCount env (runTwice F1 F2 env s db0).2.2.server ≤ 1 ∧
    ("vectors" ∈ (s env.MONGODB_DATABASE).collections ∨
      CollectionStepPassed (runTwice F1 F2 env s db0).1.2.trace ∨
      CollectionStepPassed (runTwice F1 F2 env s db0).2.2.trace →
      vectorsCount env (runTwice F1 F2 env s db0).2.2.server = 1) := by
  refine ⟨run_guardedCreateCollection F1 env s db0, run_guardedCreateCollection F2 env _ db0,
    vectorsCount_le_one _ _, ?_⟩
  intro h
  apply vectorsCount_of_mem
  show "vectors" ∈
    ((run F2 env (run F1 env s db0).2.server db0).2.server env.MONGODB_DATABASE).collections
  rcases h with h | h | h
  · exact (run_frame F2 env _ db0).vectors_kept ((run_frame F1 env s db0).vectors_kept h)
  · exact (run_frame F2 env _ db0).vectors_kept (run_collection_present h)
  · exact run_collection_present h

/-! ## Sample runs -/

/-- A run that raised nothing has no command that raised. -/
theorem okEvents_of_ok {F : Faults} {env : Env} {s : Server} {db0 : String}
    (h : (run F env s db0).1 = .ok ()) : okEvents (run F env s db0).2.trace := by
  intro c e hmem
  obtain ⟨_, h1, _, _⟩ := raised_in_run hmem
  rw [run_result, h1] at h
  cases h

theorem run_getUser_rejected_event {F : Faults} {env : Env} {e : JsError} (s : Server)
    (db0 : String) (h1 : F cmdSleep = none) (h2 : F (cmdGetUser env) = some e) :
    Event.call (cmdGetUser env) (.error e) ∈ (run F env s db0).2.trace := by
  apply run_mem_of_try
  apply (mem_tryStages F env s _).mpr
  left
  simp [userStage, h1, h2]

theorem run_createUser_rejected_event {F : Faults} {env : Env} {e : JsError} (s : Server)
    (db0 : String) (h1 : F cmdSleep = none) (h2 : F (cmdGetUser env) = none)
    (h3 : (s "admin").users.lookup env.MONGODB_USER = none)
    (h4 : F (cmdCreateUser env) = some e) :
    Event.call (cmdCreateUser env) (.error e) ∈ (run F env s db0).2.trace := by
  apply run_mem_of_try
  apply (mem_tryStages F env s _).mpr
  left
  simp [userStage, h1, h2, h3, h4]

/-- A run in which `getCollectionNames` is rejected from outside leaves the
collections of every database alone. -/
theorem run_getCollectionNames_rejected {F : Faults} {env : Env} {e : JsError} (s : Server)
    (db0 : String) (h : F (cmdGetCollectionNames env) = some e) (db : String) :
    ((run F env s db0).2.server db).collections = (s db).collections := by
  have hc : ∀ s1, (collStage F env s1).2.1 = s1 ∧ (collStage F env s1).1 ≠ none := by
    intro s1
    rcases collStage_cases F env s1 with ⟨_, hs⟩ | ⟨e, _, _, hs⟩ | ⟨_, h1, _, _⟩ |
      ⟨e, _, h1, _, _, _⟩ | ⟨_, h1, _, _, _⟩
    · rw [hs]; exact ⟨rfl, by simp⟩
    · rw [hs]; exact ⟨rfl, by simp⟩
    · rw [h] at h1; cases h1
    · rw [h] at h1; cases h1
    · rw [h] at h1; cases h1
  rw [run_server]
  rcases tryStages_cases F env s with ⟨e', _, hs⟩ | ⟨_, e', _, hs⟩ | ⟨_, hok, _⟩
  · rw [hs]; exact userStage_collections F env s db
  · rw [hs]
    show ((afterColl F env s) db).collections = (s db).collections
    unfold afterColl
    rw [(hc _).1]
    exact userStage_collections F env s db
  · exact absurd hok (hc _).2

theorem error_logged_and_rethrown_witness :
    Event.call (cmdGetUser sampleEnv) (.error sampleError) ∈
      (run (failing (cmdGetUser sampleEnv)) sampleEnv Server.empty "test").2.trace ∧
    (run (failing (cmdGetUser sampleEnv)) sampleEnv Server.empty "test").1 =
      .error sampleError :=
  ⟨run_getUser_rejected_event Server.empty "test" (failing_getUser_sleep sampleEnv)
      (failing_self _),
    ((error_logged_and_rethrown (failing (cmdGetUser sampleEnv)) sampleEnv Server.empty
      "test").1 _ _ (run_getUser_rejected_event Server.empty "test"
        (failing_getUser_sleep sampleEnv) (failing_self _))).2.2.1⟩

theorem create_index_issued_once_witness :
    (issued (run noFaults sampleEnv Server.empty "test").2.trace).filter Cmd.isCreateIndex =
      [.createIndex "langchain" "vectors"
        [("embedding", [("type", .str "vectorSearch"), ("numDimensions", .num 1536),
          ("similarity", .str "cosine")])]
        "vector_index"] :=
  create_index_issued_once noFaults sampleEnv Server.empty "test"
    (fun c e h => absurd h (okEvents_of_ok (run_empty_ok sampleEnv "test" valid_sample) c e))

theorem create_user_failure_aborts_witness :
    Event.call (cmdCreateUser sampleEnv) (.error sampleError) ∈
      (run (failing (cmdCreateUser sampleEnv)) sampleEnv Server.empty "test").2.trace ∧
    (run (failing (cmdCreateUser sampleEnv)) sampleEnv Server.empty "test").1 =
      .error sampleError ∧
    (run (failing (cmdCreateUser sampleEnv)) sampleEnv Server.empty "test").2.server =
      Server.empty :=
  have h : Event.call (cmdCreateUser sampleEnv) (.error sampleError) ∈
      (run (failing (cmdCreateUser sampleEnv)) sampleEnv Server.empty "test").2.trace :=
    run_createUser_rejected_event Server.empty "test"
      (by simp [failing, cmdSleep, cmdCreateUser])
      (by simp [failing, cmdGetUser, cmdCreateUser])
      (by simp [Server.empty, Database.empty])
      (failing_self _)
  ⟨h, (create_user_failure_aborts _ _ _ _ _ h).2.1, (create_user_failure_aborts _ _ _ _ _ h).2.2.2⟩

theorem user_created_at_most_once_witness :
    UserStepPassed (runTwice noFaults noFaults sampleEnv Server.empty "test").1.2.trace ∧
    userCount (runTwice noFaults noFaults sampleEnv Server.empty "test").2.2.server "root" = 1 :=
  have h : UserStepPassed (run noFaults sampleEnv Server.empty "test").2.trace :=
    fun c e hm => absurd hm (okEvents_of_ok (run_empty_ok sampleEnv "test" valid_sample) c e)
  ⟨h, (user_created_at_most_once noFaults noFaults sampleEnv Server.empty "test").2.2.2
    (Or.inr (Or.inl h))⟩

/-- C3 as stated fails: when the server rejects `getUser` in both runs, no
user with the configured name exists after the second run. -/
theorem user_created_at_most_once_counterexample :
    ¬ (userCount (runTwice (failing (cmdGetUser sampleEnv)) (failing (cmdGetUser sampleEnv))
        sampleEnv Server.empty "test").2.2.server sampleEnv.MONGODB_USER = 1) := by
  have h1 : ∀ s : Server,
      (run (failing (cmdGetUser sampleEnv)) sampleEnv s "test").2.server = s :=
    fun s => (run_getUser_rejected s "test" (failing_getUser_sleep sampleEnv)
      (failing_self _)).2
  show ¬ (userCount (run (failing (cmdGetUser sampleEnv)) sampleEnv
    (run (failing (cmdGetUser sampleEnv)) sampleEnv Server.empty "test").2.server
      "test").2.server sampleEnv.MONGODB_USER = 1)
  rw [h1, h1]
  simp [userCount, Server.empty, Database.empty]

theorem collection_created_at_most_once_witness :
    CollectionStepPassed (runTwice noFaults noFaults sampleEnv Server.empty "test").1.2.trace ∧
    vectorsCount sampleEnv
      (runTwice noFaults noFaults sampleEnv Server.empty "test").2.2.server = 1 :=
  have h : CollectionStepPassed (run noFaults sampleEnv Server.empty "test").2.trace :=
    fun c e hm => absurd hm (okEvents_of_ok (run_empty_ok sampleEnv "test" valid_sample) c e)
  ⟨h, (collection_created_at_most_once noFaults noFaults sampleEnv Server.empty "test").2.2.2
    (Or.inr (Or.inl h))⟩

/-- C4 as stated fails: when the server rejects `getCollectionNames` in both
runs, the target database has no collection `vectors` after the second
run. -/
theorem collection_created_at_most_once_counterexample :
    ¬ (vectorsCount sampleEnv
        (runTwice (failing (cmdGetCollectionNames sampleEnv))
          (failing (cmdGetCollectionNames sampleEnv)) sampleEnv Server.empty "test").2.2.server
        = 1) := by
  have hk : ∀ s : Server,
      ((run (failing (cmdGetCollectionNames sampleEnv)) sampleEnv s "test").2.server
        sampleEnv.MONGODB_DATABASE).collections = (s sampleEnv.MONGODB_DATABASE).collections :=
    fun s => run_getCollectionNames_rejected s "test" (failing_self _) _
  show ¬ (vectorsCount sampleEnv (run (failing (cmdGetCollectionNames sampleEnv)) sampleEnv
    (run (failing (cmdGetCollectionNames sampleEnv)) sampleEnv Server.empty "test").2.server
      "test").2.server = 1)
  unfold vectorsCount
  rw [hk, hk]
  simp [Server.empty, Database.empty]

/-! ## An invalid target database name -/

theorem userStage_noFaults (env : Env) (s : Server) : (userStage noFaults env s).1 = none := by
  rcases userStage_cases noFaults env s with ⟨e, h, _⟩ | ⟨e, _, h, _⟩ | ⟨doc, _, _, _, hs⟩ |
    ⟨e, _, _, _, h, _⟩ | ⟨_, _, _, _, hs⟩
  · cases h
  · cases h
  · rw [hs]
  · cases h
  · rw [hs]

/-- With an invalid target database name a run without outside faults stops
at the second `getSiblingDB`: that call is the only one that raised, and the
script raises its error. -/
theorem run_invalid_target (env : Env) (s : Server) (db0 : String)
    (hv : validDatabaseName env.MONGODB_DATABASE = false) :
    (run noFaults env s db0).1 = .error (invalidDatabaseNameError env.MONGODB_DATABASE) ∧
    ∀ c e, Event.call c (.error e) ∈ (run noFaults env s db0).2.trace →
      c.isGetSiblingDB = true := by
  have hu := userStage_noFaults env s
  have hc : ∀ s1, collStage noFaults env s1 =
      (some (invalidDatabaseNameError env.MONGODB_DATABASE), s1,
        [.call (cmdUseTarget env) (.error (invalidDatabaseNameError env.MONGODB_DATABASE))]) := by
    intro s1; simp [collStage, hv]
  rcases tryStages_cases noFaults env s with ⟨e, he, _⟩ | ⟨_, e, he, hs⟩ | ⟨_, hok, _⟩
  · rw [hu] at he; cases he
  · rw [hc] at he
    cases he
    refine ⟨by rw [run_result, hs]; rfl, ?_⟩
    intro c e h
    rw [mem_run_call, hs, hc] at h
    rcases List.mem_append.mp h with h | h
    · exact absurd h (shape_ok (userStage_shape noFaults env s) hu c e)
    · simp only [List.mem_singleton, Event.call.injEq] at h
      rw [h.1]; rfl
  · rw [hc] at hok; cases hok

theorem invalid_invalidEnv : validDatabaseName invalidEnv.MONGODB_DATABASE = false := by decide

theorem empty_database_provisioned_witness :
    validDatabaseName sampleEnv.MONGODB_DATABASE = true ∧
    (run noFaults sampleEnv Server.empty "test").1 = .ok () ∧
    (printed (run noFaults sampleEnv Server.empty "test").2.trace).getLast? =
      some "MongoDB initialization complete" :=
  ⟨valid_sample, (empty_database_provisioned sampleEnv "test" valid_sample).1,
    (empty_database_provisioned sampleEnv "test" valid_sample).2.2.2.2⟩

/-- C1 as stated fails: with the target database name `lang.chain` the run
on the empty server, with no command failing, raises the error of
`getSiblingDB`. -/
theorem empty_database_provisioned_counterexample :
    ¬ ((run noFaults invalidEnv Server.empty "test").1 = .ok () ∧
      invalidEnv.MONGODB_USER ∈
        ((run noFaults invalidEnv Server.empty "test").2.server "admin").users ∧
      "vectors" ∈ ((run noFaults invalidEnv Server.empty "test").2.server
        invalidEnv.MONGODB_DATABASE).collections ∧
      (∃ c, ((run noFaults invalidEnv Server.empty "test").2.server
        invalidEnv.MONGODB_DATABASE).collections.lookup "vectors" = some c ∧
          "vector_index" ∈ c.indexes) ∧
      (printed (run noFaults invalidEnv Server.empty "test").2.trace).getLast? =
        some "MongoDB initialization complete") := by
  intro h
  have h1 := h.1
  rw [(run_invalid_target invalidEnv Server.empty "test" invalid_invalidEnv).1] at h1
  cases h1

/-- C7 as stated fails: with the target database name `lang.chain` none of
`sleep`, `getUser`, `createUser`, `getCollectionNames`, `createCollection`
and `createIndex` raises, yet the script raises an error. -/
theorem error_logged_and_rethrown_counterexample :
    ¬ ((∀ c e, c.isGetSiblingDB = false →
          Event.call c (.error e) ∉ (run noFaults invalidEnv Server.empty "test").2.trace) →
        (run noFaults invalidEnv Server.empty "test").1 = .ok () ∧
        ∀ l ∈ printed (run noFaults invalidEnv Server.empty "test").2.trace,
          ¬ startsWith "Error during initialization: " l) := by
  intro h
  have hr := run_invalid_target invalidEnv Server.empty "test" invalid_invalidEnv
  have h1 := (h (fun c e hc hm => by rw [hr.2 c e hm] at hc; cases hc)).1
  rw [hr.1] at h1
  cases h1

end InitMongo
